import Mathlib

/-!
Shallow embedding of the NvPipe decode session (src/decode.c).

The session logic — validation, lazy parser creation, packet submission with
synchronous callbacks, the empty-stream guard, the resize-and-resubmit
recursion, and the map/convert/copy/sync/unmap steady-state path — is
translated from `nvp_cuvid_decode`, `dec_initialize` (here `dec_init`),
`resize`, `dec_sequence`, `dec_ode` and `nvp_cuvid_destroy`.

The underlying CUDA/cuvid engine is out of scope of the source file; it is
modelled as an `Engine` oracle: boolean success knobs for creation and
allocation calls, `CUresult` codes for the steady-state calls, and a stream
of `ParseEvent`s (indexed by the number of `cuvidParseVideoData` calls made
so far) describing which callbacks a submission fires.  Every engine call
the code performs is also recorded in an `EngAct` trace so that ordering and
cleanup properties can be stated.

Recursion of `nvp_cuvid_decode` into itself is modelled with explicit fuel;
`DecodeOut.fuelOut = true` marks a run that needed more submissions than the
fuel allowed, and `DecodeOut.resubmits` counts the recursive resubmissions
performed.
-/

/-- CUDA result code; 0 is success (CUDA_SUCCESS). -/
abbrev CUresult := Nat

/-- Limits from decode.c lines 54-55. -/
def MAX_WIDTH : Nat := 4096

/-- Height limit from decode.c line 55. -/
def MAX_HEIGHT : Nat := 4096

/-- Error type surfaced by the session (`nvp_err_t`).  The concrete enum
lives in nvpipe.h, which is not among the sources; modelled from the spec:
the error taxonomy names InvalidArgument (`einval`, NVPIPE_EINVAL),
DecodeSetupError (`esetup`), DecodeError (`edecode`, NVPIPE_EDECODE) and
EmptyStream (`emptyStream`).  `raw c` models an engine `CUresult` value
returned to the caller untranslated (decode.c assigns `CUresult` values
directly to the returned `nvp_err_t` in the steady-state path). -/
inductive NvpErr where
  | success
  | einval
  | esetup
  | edecode
  | emptyStream
  | raw (code : CUresult)
deriving Repr, DecidableEq

/-- The `d` ("dims") sub-struct of `struct nvp_decoder` (decode.c 71-79). -/
structure Dims where
  wi : Nat
  hi : Nat
  wdst : Nat
  hdst : Nat
  wsrc : Nat
  hsrc : Nat
deriving Repr, DecidableEq

/-- `struct nvp_decoder` (decode.c 59-83).  Handles are tracked by presence:
`decoder`/`parser`/`reorg` are true when the corresponding handle is
non-NULL; `rgb = some nb` means the temporary RGB device buffer is a live
allocation of `nb` bytes, `none` means the pointer is 0.  `isDecoder`
models `impl.type == DECODER`. -/
structure NvpDecoder where
  isDecoder : Bool
  initialized : Bool
  decoder : Bool
  parser : Bool
  d : Dims
  rgb : Option Nat
  empty : Bool
  reorg : Bool
deriving Repr, DecidableEq

/-- The fields of `CUVIDEOFORMAT` read by `dec_sequence`. -/
structure VideoFormat where
  display_left : Nat
  display_top : Nat
  display_right : Nat
  display_bottom : Nat
  coded_height : Nat
  bit_depth_luma_minus8 : Nat
deriving Repr, DecidableEq

/-- The fields of `CUVIDPICPARAMS` read by `dec_ode`. -/
structure PicParams where
  PicWidthInMbs : Nat
  FrameHeightInMbs : Nat
deriving Repr, DecidableEq

/-- Outcome of one `cuvidParseVideoData` call: the code the call returns,
and which of the two session callbacks it fires while running (`seq` the
sequence callback, `pic` the decode callback, the latter carrying the
`cuvidDecodePicture` outcome observed inside `dec_ode` together with the
picture parameters). -/
structure ParseEvent where
  result : CUresult
  seq : Option VideoFormat
  pic : Option (CUresult × PicParams)
deriving Repr, DecidableEq

/-- Oracle for the engine calls decode.c makes.  `parses k` is the outcome
of the (k+1)-st `cuvidParseVideoData` call of the session. -/
structure Engine where
  createOk : Bool
  freeOk : Bool
  allocOk : Bool
  parserCreateOk : Bool
  mapRes : CUresult
  subRes : CUresult
  copyRes : CUresult
  syncRes : CUresult
  unmapRes : CUresult
  destroyRes : CUresult
  parses : Nat → ParseEvent

/-- Engine calls made by the session, recorded in order. -/
inductive EngAct where
  | createParserAct
  | parseData (sz : Nat)
  | createDecoderAct (iw ih dw dh : Nat) (ok : Bool)
  | destroyDecoderAct
  | destroyParserAct
  | memFreeAct
  | memAllocAct (nb : Nat) (ok : Bool)
  | decodePictureAct
  | mapFrameAct
  | unmapFrameAct
  | convertSubmitAct
  | copyDtoHAct (nb : Nat)
  | syncAct
  | reorgDestroyAct
  | freeSessionAct
deriving Repr, DecidableEq

/-- Result triple used by `dec_init`, `dec_sequence` and `dec_ode`: the
state after the call, the boolean/int the C function returns, and the
engine calls made. -/
structure InitOut where
  st : NvpDecoder
  ok : Bool
  tr : List EngAct
deriving Repr, DecidableEq

/-- Buffer phase of `dec_initialize` (decode.c 123-143): allocation after a
successful (or skipped) free.  On `cuMemAlloc` failure the code sets
`nvp->rgb = 0` and fails. -/
def dec_init_alloc (eng : Engine) (st : NvpDecoder) (dstwidth dstheight : Nat)
    (tr : List EngAct) : InitOut :=
  let nb := dstwidth * dstheight * 3
  if eng.allocOk then
    ⟨{ st with rgb := some nb,
               d := { st.d with wdst := dstwidth, hdst := dstheight } }, true,
     tr ++ [EngAct.memAllocAct nb true]⟩
  else
    ⟨{ st with rgb := none }, false, tr ++ [EngAct.memAllocAct nb false]⟩

/-- Buffer phase of `dec_initialize` (decode.c 123-143): the temporary RGB
buffer is freed (when live) and reallocated only when the requested output
size differs from the recorded one; on `cuMemFree` failure the code returns
false without clearing `nvp->rgb`. -/
def dec_init_buffer (eng : Engine) (st : NvpDecoder) (dstwidth dstheight : Nat) :
    InitOut :=
  if dstwidth ≠ st.d.wdst ∨ dstheight ≠ st.d.hdst then
    match st.rgb with
    | some _ =>
      if eng.freeOk then
        dec_init_alloc eng { st with rgb := none } dstwidth dstheight
          [EngAct.memFreeAct]
      else ⟨st, false, [EngAct.memFreeAct]⟩
    | none => dec_init_alloc eng st dstwidth dstheight []
  else ⟨st, true, []⟩

/-- Model of `dec_initialize` (decode.c 93-147), renamed `dec_init`.  Note
the code records `d.wi`/`d.hi` (lines 103-104) before calling
`cuvidCreateDecoder`, so they are updated even when decoder creation then
fails; `d.wdst`/`d.hdst` are updated only after a successful buffer
allocation; `initialized` is set only when everything succeeded.  The
`assert`s of the source are compiled out (NDEBUG) and not modelled. -/
def dec_init (eng : Engine) (nvp : NvpDecoder)
    (iwidth iheight dstwidth dstheight : Nat) : InitOut :=
  let st1 := { nvp with d := { nvp.d with wi := iwidth, hi := iheight } }
  if eng.createOk then
    let st2 := { st1 with decoder := true }
    let r := dec_init_buffer eng st2 dstwidth dstheight
    if r.ok then
      ⟨{ r.st with initialized := true }, true,
       EngAct.createDecoderAct iwidth iheight dstwidth dstheight true :: r.tr⟩
    else
      ⟨r.st, false,
       EngAct.createDecoderAct iwidth iheight dstwidth dstheight true :: r.tr⟩
  else
    ⟨st1, false, [EngAct.createDecoderAct iwidth iheight dstwidth dstheight false]⟩

/-- Model of `resize` (decode.c 150-158): destroy the live decoder (a
destruction failure is only logged), clear the handle, reinitialize.  The
return value of `dec_initialize` is ignored, as in the source. -/
def resize (eng : Engine) (nvp : NvpDecoder)
    (width height dstwidth dstheight : Nat) : NvpDecoder × List EngAct :=
  let tr1 : List EngAct := if nvp.decoder then [EngAct.destroyDecoderAct] else []
  let r := dec_init eng { nvp with decoder := false } width height dstwidth dstheight
  (r.st, tr1 ++ r.tr)

/-- Model of `dec_sequence` (decode.c 181-217).  Oversized geometry is only
warned about and decoding still attempted; a nonzero luma bit depth makes
the callback return 0 without touching the session; the decoder is
initialized from the display area only on the first sequence. -/
def dec_sequence (eng : Engine) (nvp : NvpDecoder) (fmt : VideoFormat) : InitOut :=
  if fmt.bit_depth_luma_minus8 ≠ 0 then ⟨nvp, false, []⟩
  else
    let w := fmt.display_right - fmt.display_left
    let h := fmt.display_bottom - fmt.display_top
    if nvp.initialized then ⟨nvp, true, []⟩
    else dec_init eng nvp w h w h

/-- Model of `dec_ode` (decode.c 219-234): on a successful
`cuvidDecodePicture` the observed stream size is recorded from the picture
parameters (in units of 16-pixel macroblocks); on failure the callback
returns 0 leaving the recorded size untouched. -/
def dec_ode (nvp : NvpDecoder) (decres : CUresult) (pic : PicParams) : InitOut :=
  if decres ≠ 0 then ⟨nvp, false, [EngAct.decodePictureAct]⟩
  else
    ⟨{ nvp with d := { nvp.d with wsrc := pic.PicWidthInMbs * 16,
                                  hsrc := pic.FrameHeightInMbs * 16 } }, true,
     [EngAct.decodePictureAct]⟩

/-- One `cuvidParseVideoData` call (decode.c 302): fires the sequence
callback when the event carries a format and then, unless that callback
aborted (returned 0), the decode callback; finally yields the call's own
result code. -/
def runParse (eng : Engine) (st : NvpDecoder) (ev : ParseEvent) :
    NvpDecoder × CUresult × List EngAct :=
  let s : InitOut :=
    match ev.seq with
    | some fmt => dec_sequence eng st fmt
    | none => ⟨st, true, []⟩
  if s.ok then
    match ev.pic with
    | some rp =>
      let p := dec_ode s.st rp.1 rp.2
      (p.st, ev.result, s.tr ++ p.tr)
    | none => (s.st, ev.result, s.tr)
  else (s.st, ev.result, s.tr)

/-- Outcome of one submission attempt inside `nvp_cuvid_decode`: either the
call is finished (`done`) or the code resubmits the identical packet to
itself (`again`). -/
inductive StepOut where
  | done (err : NvpErr) (st : NvpDecoder) (tr : List EngAct)
  | again (st : NvpDecoder) (tr : List EngAct)
deriving Repr, DecidableEq

/-- One non-recursive pass of `nvp_cuvid_decode` (decode.c 271-385):
validation, lazy parser creation, packet submission, the empty-stream
guard, the resize check, and the steady-state map/convert/copy/sync/unmap
path.  The two recursive calls of the source (lines 318 and 331) become
`StepOut.again`. -/
def decode_step (eng : Engine) (ev : ParseEvent) (st : NvpDecoder)
    (ibuf_sz width height : Nat) : StepOut :=
  if ¬ st.isDecoder then .done .einval st []
  else if ibuf_sz = 0 then .done .einval st []
  else if width = 0 ∨ height = 0 ∨ height % 2 = 1 then .done .einval st []
  else if ¬ st.parser ∧ ¬ eng.parserCreateOk then
    .done .edecode st [EngAct.createParserAct]
  else
    let trP : List EngAct := if st.parser then [] else [EngAct.createParserAct]
    let st1 := { st with parser := true }
    let q := runParse eng st1 ev
    let tr0 := trP ++ EngAct.parseData ibuf_sz :: q.2.2
    if q.2.1 ≠ 0 then .done .edecode q.1 tr0
    else if q.1.d.wsrc = 0 ∨ q.1.d.hsrc = 0 then
      if q.1.empty then .done .einval q.1 tr0
      else .again { q.1 with empty := true } tr0
    else
      let st3 := { q.1 with empty := false }
      if st3.d.wsrc ≠ st3.d.wi ∨ st3.d.hsrc ≠ st3.d.hi ∨
         st3.d.wdst ≠ width ∨ st3.d.hdst ≠ height then
        let r := resize eng st3 st3.d.wsrc st3.d.hsrc width height
        .again r.1 (tr0 ++ r.2)
      else if eng.mapRes ≠ 0 then .done (.raw eng.mapRes) st3 tr0
      else
        let st4 := { st3 with reorg := true }
        let nb := st4.d.wdst * st4.d.hdst * 3
        let trM := tr0 ++ [EngAct.mapFrameAct]
        if eng.subRes ≠ 0 then
          .done (.raw eng.subRes) st4
            (trM ++ [EngAct.convertSubmitAct, EngAct.unmapFrameAct])
        else if eng.copyRes ≠ 0 then
          .done (.raw eng.copyRes) st4
            (trM ++ [EngAct.convertSubmitAct, EngAct.copyDtoHAct nb,
                     EngAct.unmapFrameAct])
        else if eng.syncRes ≠ 0 then
          .done (.raw eng.syncRes) st4
            (trM ++ [EngAct.convertSubmitAct, EngAct.copyDtoHAct nb,
                     EngAct.syncAct, EngAct.unmapFrameAct])
        else
          .done .success st4
            (trM ++ [EngAct.convertSubmitAct, EngAct.copyDtoHAct nb,
                     EngAct.syncAct, EngAct.unmapFrameAct])

/-- Result of a (possibly self-resubmitting) `nvp_cuvid_decode` call:
returned error, final state, full engine-call trace, number of recursive
resubmissions performed, index of the next unused parse event, and whether
the fuel ran out before the call finished. -/
structure DecodeOut where
  err : NvpErr
  st : NvpDecoder
  tr : List EngAct
  resubmits : Nat
  kOut : Nat
  fuelOut : Bool
deriving Repr, DecidableEq

/-- Model of `nvp_cuvid_decode` (decode.c 271-385) with explicit fuel for
the self-resubmission recursion.  `k` indexes the engine's parse-event
stream. -/
def nvp_cuvid_decode (eng : Engine) :
    Nat → Nat → NvpDecoder → Nat → Nat → Nat → DecodeOut
  | 0, k, st, _, _, _ => ⟨.success, st, [], 0, k, true⟩
  | fuel + 1, k, st, ibuf_sz, width, height =>
    match decode_step eng (eng.parses k) st ibuf_sz width height with
    | .done e st1 tr => ⟨e, st1, tr, 0, k + 1, false⟩
    | .again st1 tr =>
      let r := nvp_cuvid_decode eng fuel (k + 1) st1 ibuf_sz width height
      ⟨r.err, r.st, tr ++ r.tr, r.resubmits + 1, r.kOut, r.fuelOut⟩

/-- Model of `nvp_cuvid_destroy` (decode.c 160-179): release decoder,
parser, temporary buffer and converter in that order (each failure only
logged), then free the session.  Returns the state as it stands just
before `free(nvp)` together with the release trace.  Note the source
clears only the converter handle (`nvp->reorg = NULL`); the decoder,
parser and buffer fields keep their stale values until the session memory
itself is freed. -/
def nvp_cuvid_destroy (st : NvpDecoder) : NvpDecoder × List EngAct :=
  let tr1 : List EngAct := if st.decoder then [EngAct.destroyDecoderAct] else []
  let tr2 : List EngAct := if st.parser then [EngAct.destroyParserAct] else []
  let p : NvpDecoder × List EngAct :=
    if st.reorg then ({ st with reorg := false }, [EngAct.reorgDestroyAct])
    else (st, [])
  (p.1, tr1 ++ tr2 ++ [EngAct.memFreeAct] ++ p.2 ++ [EngAct.freeSessionAct])

/-- A freshly created decode session (`nvp_create_decoder`, decode.c
414-427): calloc-zeroed. -/
def freshSession : NvpDecoder :=
  ⟨true, false, false, false, ⟨0, 0, 0, 0, 0, 0⟩, none, false, false⟩

/-- An engine whose calls all succeed and whose submissions fire no
callbacks; concrete scenarios are built from it by structure update. -/
def engBase : Engine :=
  ⟨true, true, true, true, 0, 0, 0, 0, 0, 0, fun _ => ⟨0, none, none⟩⟩

/-- A parse event firing only a successful decode callback reporting a
picture of `pw × ph` macroblocks. -/
def picEvent (pw ph : Nat) : ParseEvent :=
  ⟨0, none, some (0, ⟨pw, ph⟩)⟩

/-- A sequence format: 16×16 display area, 8-bit depth. -/
def fmt16 : VideoFormat := ⟨0, 0, 16, 16, 16, 0⟩

/-- State carried by a step outcome. -/
def StepOut.state : StepOut → NvpDecoder
  | .done _ st _ => st
  | .again st _ => st

/-- Trace carried by a step outcome. -/
def StepOut.trace : StepOut → List EngAct
  | .done _ _ tr => tr
  | .again _ tr => tr

/-- Whether a step finished the call (no resubmission). -/
def StepOut.isDone : StepOut → Bool
  | .done _ _ _ => true
  | .again _ _ => false

/-- The four creation-time sizes of the session (`d.wi`, `d.hi`, `d.wdst`,
`d.hdst`): the geometry the live decoder instance and intermediate buffer
were created for. -/
def sizesQuad (st : NvpDecoder) : Nat × Nat × Nat × Nat :=
  (st.d.wi, st.d.hi, st.d.wdst, st.d.hdst)

/-- The engine reports one fixed picture geometry: every successful decode
callback it ever fires carries the same `pw × ph` macroblock size.  This is
how a real engine behaves when the identical packet is resubmitted within
one call. -/
def picConsistent (eng : Engine) (pw ph : Nat) : Prop :=
  ∀ k r pic, (eng.parses k).pic = some (r, pic) → r = 0 → pic = ⟨pw, ph⟩

/-- After an empty resubmission: the observed size is still unknown and the
pending-empty flag is set. -/
def stateP (st : NvpDecoder) : Prop :=
  (st.d.wsrc = 0 ∨ st.d.hsrc = 0) ∧ st.empty = true

/-- After a successful resize for request `w × h`: the created input size
equals the (nonzero) observed size and the created output size equals the
request. -/
def stateR (w h : Nat) (st : NvpDecoder) : Prop :=
  st.d.wi = st.d.wsrc ∧ st.d.hi = st.d.hsrc ∧ st.d.wdst = w ∧ st.d.hdst = h ∧
  st.d.wsrc ≠ 0 ∧ st.d.hsrc ≠ 0 ∧ st.initialized = true

/-- Steady state for an engine that reports `pw × ph` macroblocks and a
request of `w × h`: created input size, observed size and created output
size all agree. -/
def stateR2 (pw ph w h : Nat) (st : NvpDecoder) : Prop :=
  st.d.wi = pw * 16 ∧ st.d.hi = ph * 16 ∧
  st.d.wsrc = pw * 16 ∧ st.d.hsrc = ph * 16 ∧
  st.d.wdst = w ∧ st.d.hdst = h ∧ st.initialized = true

/-- A session in steady state at 16×16 input and output. -/
def stSteady : NvpDecoder :=
  ⟨true, true, true, true, ⟨16, 16, 16, 16, 16, 16⟩, some 768, false, false⟩

/-- A session with every handle live, converter included. -/
def stFull : NvpDecoder :=
  ⟨true, true, true, true, ⟨16, 16, 16, 16, 16, 16⟩, some 768, false, true⟩

/-- An engine whose submissions never fire any callback. -/
def engEmpty : Engine := { engBase with parses := fun _ => ⟨0, none, none⟩ }

/-- An adversarial engine whose decode callback reports a strictly larger
picture on every submission. -/
def engGrow : Engine :=
  { engBase with parses := fun k =>
      if k = 0 then ⟨0, some fmt16, some (0, ⟨k + 2, 1⟩)⟩
      else ⟨0, none, some (0, ⟨k + 2, 1⟩)⟩ }

/-- An all-success engine whose decode callback always reports a 32×16
picture (2×1 macroblocks). -/
def engResize : Engine := { engBase with parses := fun _ => picEvent 2 1 }

/-- An all-success engine whose decode callback always reports a 16×16
picture (1×1 macroblocks). -/
def engOne : Engine := { engBase with parses := fun _ => picEvent 1 1 }

/-- Engine whose frame mapping fails with the platform code 999
(CUDA_ERROR_UNKNOWN). -/
def engMapFail : Engine :=
  { engBase with mapRes := 999, parses := fun _ => picEvent 1 1 }

/-- A sequence format with an unhandled (10-bit) luma depth. -/
def fmtBad : VideoFormat := ⟨0, 0, 16, 16, 16, 2⟩

/-- A sequence format exceeding the 4096-pixel width limit, 8-bit depth. -/
def fmtOversz : VideoFormat := ⟨0, 0, 5000, 16, 16, 0⟩

/-- Engine whose packet parsing always fails with platform code 5. -/
def engParseFail : Engine := { engBase with parses := fun _ => ⟨5, none, none⟩ }

/-- A fresh session whose parser has already been created (the state after
a first submission that produced nothing). -/
def stParsed : NvpDecoder := { freshSession with parser := true }

/-- The trace contains a `cuvidCreateDecoder` attempt (successful or not). -/
def hasCreate (tr : List EngAct) : Prop :=
  ∃ iw ih dw dh ok, EngAct.createDecoderAct iw ih dw dh ok ∈ tr

/-- The part of one `nvp_cuvid_decode` pass that follows packet
submission, abstracted over the submission's outcome: `Q` the session
state after the callbacks, `res` the parse result, `tr0` the trace so far
(decode.c 304-384).  `decode_step` is proved equal to validation followed
by this core. -/
def step_core (eng : Engine) (Q : NvpDecoder) (res : CUresult)
    (tr0 : List EngAct) (width height : Nat) : StepOut :=
  if res ≠ 0 then .done .edecode Q tr0
  else if Q.d.wsrc = 0 ∨ Q.d.hsrc = 0 then
    if Q.empty then .done .einval Q tr0
    else .again { Q with empty := true } tr0
  else
    let st3 := { Q with empty := false }
    if st3.d.wsrc ≠ st3.d.wi ∨ st3.d.hsrc ≠ st3.d.hi ∨
       st3.d.wdst ≠ width ∨ st3.d.hdst ≠ height then
      let r := resize eng st3 st3.d.wsrc st3.d.hsrc width height
      .again r.1 (tr0 ++ r.2)
    else if eng.mapRes ≠ 0 then .done (.raw eng.mapRes) st3 tr0
    else
      let st4 := { st3 with reorg := true }
      let nb := st4.d.wdst * st4.d.hdst * 3
      let trM := tr0 ++ [EngAct.mapFrameAct]
      if eng.subRes ≠ 0 then
        .done (.raw eng.subRes) st4
          (trM ++ [EngAct.convertSubmitAct, EngAct.unmapFrameAct])
      else if eng.copyRes ≠ 0 then
        .done (.raw eng.copyRes) st4
          (trM ++ [EngAct.convertSubmitAct, EngAct.copyDtoHAct nb,
                   EngAct.unmapFrameAct])
      else if eng.syncRes ≠ 0 then
        .done (.raw eng.syncRes) st4
          (trM ++ [EngAct.convertSubmitAct, EngAct.copyDtoHAct nb,
                   EngAct.syncAct, EngAct.unmapFrameAct])
      else
        .done .success st4
          (trM ++ [EngAct.convertSubmitAct, EngAct.copyDtoHAct nb,
                   EngAct.syncAct, EngAct.unmapFrameAct])

/-! ## Helper lemmas -/

/-- `dec_initialize` always performs exactly one `cuvidCreateDecoder` call
(its attempt is recorded whether or not it succeeds). -/
theorem dec_init_create_mem (eng : Engine) (st : NvpDecoder) (iw ih dw dh : Nat) :
    EngAct.createDecoderAct iw ih dw dh eng.createOk ∈ (dec_init eng st iw ih dw dh).tr := by
  unfold dec_init
  by_cases hc : eng.createOk
  · simp only [hc, if_true]
    split <;> simp [hc]
  · simp [hc]

/-- `dec_initialize` never touches the observed stream size, the
pending-empty flag, the session type or the parser handle. -/
theorem dec_init_preserve (eng : Engine) (st : NvpDecoder) (iw ih dw dh : Nat) :
    (dec_init eng st iw ih dw dh).st.d.wsrc = st.d.wsrc ∧
    (dec_init eng st iw ih dw dh).st.d.hsrc = st.d.hsrc ∧
    (dec_init eng st iw ih dw dh).st.empty = st.empty ∧
    (dec_init eng st iw ih dw dh).st.isDecoder = st.isDecoder ∧
    (dec_init eng st iw ih dw dh).st.parser = st.parser := by
  unfold dec_init dec_init_buffer dec_init_alloc
  by_cases hc : eng.createOk <;> by_cases hd : dw ≠ st.d.wdst ∨ dh ≠ st.d.hdst <;>
    by_cases hf : eng.freeOk <;> by_cases ha : eng.allocOk <;>
    rcases hr : st.rgb with _ | nb <;>
    simp [hc, hd, hf, ha, hr]

/-- `dec_initialize` always records the requested input size, and — when
decoder creation and the buffer phase succeed — the requested output size,
a live decoder, a buffer of the requested byte size, success, and the
`initialized` mark. -/
theorem dec_init_ok (eng : Engine) (st : NvpDecoder) (iw ih dw dh : Nat)
    (hc : eng.createOk = true) (hf : eng.freeOk = true) (ha : eng.allocOk = true) :
    (dec_init eng st iw ih dw dh).st.d.wi = iw ∧
    (dec_init eng st iw ih dw dh).st.d.hi = ih ∧
    (dec_init eng st iw ih dw dh).st.d.wdst = dw ∧
    (dec_init eng st iw ih dw dh).st.d.hdst = dh ∧
    (dec_init eng st iw ih dw dh).st.initialized = true ∧
    (dec_init eng st iw ih dw dh).st.decoder = true ∧
    (dec_init eng st iw ih dw dh).ok = true := by
  unfold dec_init dec_init_buffer dec_init_alloc
  by_cases hd : dw ≠ st.d.wdst ∨ dh ≠ st.d.hdst <;>
    rcases hr : st.rgb with _ | nb <;>
    simp [hc, hf, ha, hd, hr] <;>
    push_neg at hd <;> simp [hd.1, hd.2]

/-- A successful `resize` establishes: created input size = the sizes it was
asked to resize to, created output size = the requested output size, a live
initialized decoder; it leaves the observed size, the pending-empty flag,
the session type and the parser untouched. -/
theorem resize_ok (eng : Engine) (st : NvpDecoder) (sw sh w h : Nat)
    (hc : eng.createOk = true) (hf : eng.freeOk = true) (ha : eng.allocOk = true) :
    (resize eng st sw sh w h).1.d.wi = sw ∧
    (resize eng st sw sh w h).1.d.hi = sh ∧
    (resize eng st sw sh w h).1.d.wdst = w ∧
    (resize eng st sw sh w h).1.d.hdst = h ∧
    (resize eng st sw sh w h).1.initialized = true ∧
    (resize eng st sw sh w h).1.decoder = true ∧
    (resize eng st sw sh w h).1.d.wsrc = st.d.wsrc ∧
    (resize eng st sw sh w h).1.d.hsrc = st.d.hsrc ∧
    (resize eng st sw sh w h).1.empty = st.empty ∧
    (resize eng st sw sh w h).1.isDecoder = st.isDecoder ∧
    (resize eng st sw sh w h).1.parser = st.parser := by
  have h1 := dec_init_ok eng { st with decoder := false } sw sh w h hc hf ha
  have h2 := dec_init_preserve eng { st with decoder := false } sw sh w h
  unfold resize
  simp only at h1 h2 ⊢
  exact ⟨h1.1, h1.2.1, h1.2.2.1, h1.2.2.2.1, h1.2.2.2.2.1, h1.2.2.2.2.2.1,
         h2.1, h2.2.1, h2.2.2.1, h2.2.2.2.1, h2.2.2.2.2⟩

/-- The sequence callback never touches the observed stream size or the
pending-empty flag. -/
theorem dec_sequence_preserve (eng : Engine) (st : NvpDecoder) (fmt : VideoFormat) :
    (dec_sequence eng st fmt).st.d.wsrc = st.d.wsrc ∧
    (dec_sequence eng st fmt).st.d.hsrc = st.d.hsrc ∧
    (dec_sequence eng st fmt).st.empty = st.empty ∧
    (dec_sequence eng st fmt).st.isDecoder = st.isDecoder ∧
    (dec_sequence eng st fmt).st.parser = st.parser := by
  unfold dec_sequence
  by_cases hb : fmt.bit_depth_luma_minus8 ≠ 0 <;> by_cases hi : st.initialized <;>
    simp [hb, hi, dec_init_preserve]

/-- On an already-initialized session the sequence callback is a no-op on
the state and makes no engine call. -/
theorem dec_sequence_initialized (eng : Engine) (st : NvpDecoder) (fmt : VideoFormat)
    (hi : st.initialized = true) :
    (dec_sequence eng st fmt).st = st ∧ (dec_sequence eng st fmt).tr = [] := by
  unfold dec_sequence
  by_cases hb : fmt.bit_depth_luma_minus8 ≠ 0 <;> simp [hb, hi]

/-- The state after a submission keeps the pending-empty flag, the session
type and the parser handle of the state before it. -/
theorem runParse_preserve (eng : Engine) (st : NvpDecoder) (ev : ParseEvent) :
    (runParse eng st ev).1.empty = st.empty ∧
    (runParse eng st ev).1.isDecoder = st.isDecoder ∧
    (runParse eng st ev).1.parser = st.parser := by
  unfold runParse
  rcases hs : ev.seq with _ | fmt <;> rcases hp : ev.pic with _ | rp <;>
    simp only [hs, hp]
  · simp
  · unfold dec_ode
    by_cases hr : rp.1 ≠ 0 <;> simp [hr]
  · have h1 := dec_sequence_preserve eng st fmt
    by_cases ho : (dec_sequence eng st fmt).ok <;>
      simp [ho, h1.2.2.1, h1.2.2.2.1, h1.2.2.2.2]
  · have h1 := dec_sequence_preserve eng st fmt
    unfold dec_ode
    by_cases ho : (dec_sequence eng st fmt).ok <;> by_cases hr : rp.1 ≠ 0 <;>
      simp [ho, hr, h1.2.2.1, h1.2.2.2.1, h1.2.2.2.2]

/-- The submission result code is the parse event's own result code. -/
theorem runParse_result (eng : Engine) (st : NvpDecoder) (ev : ParseEvent) :
    (runParse eng st ev).2.1 = ev.result := by
  unfold runParse
  rcases hs : ev.seq with _ | fmt <;> rcases hp : ev.pic with _ | rp <;>
    simp only [hs, hp]
  · simp
  · unfold dec_ode
    by_cases hr : rp.1 ≠ 0 <;> simp [hr]
  · by_cases ho : (dec_sequence eng st fmt).ok <;> simp [ho]
  · unfold dec_ode
    by_cases ho : (dec_sequence eng st fmt).ok <;> by_cases hr : rp.1 ≠ 0 <;>
      simp [ho, hr]

/-- After a submission the observed stream size is either untouched or was
set by a successful decode callback from the event's picture parameters. -/
theorem runParse_src (eng : Engine) (st : NvpDecoder) (ev : ParseEvent) :
    ((runParse eng st ev).1.d.wsrc = st.d.wsrc ∧
     (runParse eng st ev).1.d.hsrc = st.d.hsrc) ∨
    (∃ pic, ev.pic = some (0, pic) ∧
     (runParse eng st ev).1.d.wsrc = pic.PicWidthInMbs * 16 ∧
     (runParse eng st ev).1.d.hsrc = pic.FrameHeightInMbs * 16) := by
  unfold runParse
  rcases hs : ev.seq with _ | fmt <;> rcases hp : ev.pic with _ | ⟨r1, pic1⟩ <;>
    simp only [hs, hp]
  · simp
  · unfold dec_ode
    by_cases hr : r1 ≠ 0
    · simp [hr]
    · simp only [ne_eq, Decidable.not_not] at hr
      subst hr
      right
      exact ⟨pic1, rfl, by simp, by simp⟩
  · have h1 := dec_sequence_preserve eng st fmt
    by_cases ho : (dec_sequence eng st fmt).ok <;> simp [ho, h1.1, h1.2.1]
  · have h1 := dec_sequence_preserve eng st fmt
    unfold dec_ode
    by_cases ho : (dec_sequence eng st fmt).ok
    · by_cases hr : r1 ≠ 0
      · simp [ho, hr, h1.1, h1.2.1]
      · simp only [ne_eq, Decidable.not_not] at hr
        subst hr
        right
        exact ⟨pic1, rfl, by simp [ho], by simp [ho]⟩
    · simp [ho, h1.1, h1.2.1]

/-- On an already-initialized session a submission leaves the four
creation-time sizes and the `initialized` mark unchanged (the sequence
callback only initializes once). -/
theorem runParse_init_fields (eng : Engine) (st : NvpDecoder) (ev : ParseEvent)
    (hi : st.initialized = true) :
    (runParse eng st ev).1.d.wi = st.d.wi ∧
    (runParse eng st ev).1.d.hi = st.d.hi ∧
    (runParse eng st ev).1.d.wdst = st.d.wdst ∧
    (runParse eng st ev).1.d.hdst = st.d.hdst ∧
    (runParse eng st ev).1.initialized = true := by
  unfold runParse
  rcases hs : ev.seq with _ | fmt <;> rcases hp : ev.pic with _ | rp <;>
    simp only [hs, hp]
  · simp [hi]
  · unfold dec_ode
    by_cases hr : rp.1 ≠ 0 <;> simp [hr, hi]
  · have h1 := dec_sequence_initialized eng st fmt hi
    by_cases ho : (dec_sequence eng st fmt).ok <;> simp [ho, h1.1, hi]
  · have h1 := dec_sequence_initialized eng st fmt hi
    unfold dec_ode
    by_cases ho : (dec_sequence eng st fmt).ok <;> by_cases hr : rp.1 ≠ 0 <;>
      simp [ho, hr, h1.1, hi]

/-- A submission firing only a successful decode callback records the
reported size and changes nothing else. -/
theorem runParse_picEvent (eng : Engine) (st : NvpDecoder) (pw ph : Nat) :
    runParse eng st (picEvent pw ph) =
      ({ st with d := { st.d with wsrc := pw * 16, hsrc := ph * 16 } }, 0,
       [EngAct.decodePictureAct]) := by
  unfold runParse picEvent dec_ode
  simp

/-- A submission firing no callback changes nothing. -/
theorem runParse_none (eng : Engine) (st : NvpDecoder) (res : CUresult) :
    runParse eng st ⟨res, none, none⟩ = (st, res, []) := by
  unfold runParse
  simp

/-! ## C6 — argument validation -/

/-- C6: a decode call with an empty packet, a zero requested width, or a
zero or odd requested height returns InvalidArgument, makes no engine call,
and leaves the session state unchanged. -/
theorem c6_invalid_args (eng : Engine) (fuel k : Nat) (st : NvpDecoder)
    (a w h : Nat) (hbad : a = 0 ∨ w = 0 ∨ h = 0 ∨ h % 2 = 1) :
    nvp_cuvid_decode eng (fuel + 1) k st a w h =
      ⟨NvpErr.einval, st, [], 0, k + 1, false⟩ := by
  have hstep : decode_step eng (eng.parses k) st a w h = .done .einval st [] := by
    unfold decode_step
    by_cases hd : st.isDecoder
    · by_cases ha : a = 0
      · simp [hd, ha]
      · have hw : w = 0 ∨ h = 0 ∨ h % 2 = 1 := by tauto
        simp [hd, ha, hw]
    · simp [hd]
  unfold nvp_cuvid_decode
  rw [hstep]

/-- Witness for C6 at a concrete call: a zero-size packet on a steady
session. -/
theorem c6_invalid_args_w :
    nvp_cuvid_decode engBase 1 0 stSteady 0 16 16 =
      ⟨NvpErr.einval, stSteady, [], 0, 1, false⟩ :=
  c6_invalid_args engBase 0 0 stSteady 0 16 16 (Or.inl rfl)

/-! ## C10 — unsupported bit depth aborts, oversize only warns -/

/-- C10: a sequence whose luma bit depth is not 8 makes the sequence
callback return 0 without touching the session, so the whole submission
(decode callback included) leaves the session unchanged and no picture
size is ever recorded; an oversized (above the 4096-pixel limit) geometry,
in contrast, still leads to a `cuvidCreateDecoder` attempt on an
uninitialized session. -/
theorem c10_bitdepth (eng : Engine) (st : NvpDecoder) (fmt oversz : VideoFormat)
    (rp : CUresult × PicParams) (res : CUresult)
    (hbd : fmt.bit_depth_luma_minus8 ≠ 0)
    (hov0 : oversz.bit_depth_luma_minus8 = 0)
    (hovsz : MAX_WIDTH < oversz.display_right)
    (hinit : st.initialized = false) :
    dec_sequence eng st fmt = ⟨st, false, []⟩ ∧
    runParse eng st ⟨res, some fmt, some rp⟩ = (st, res, []) ∧
    EngAct.createDecoderAct (oversz.display_right - oversz.display_left)
        (oversz.display_bottom - oversz.display_top)
        (oversz.display_right - oversz.display_left)
        (oversz.display_bottom - oversz.display_top) eng.createOk
      ∈ (dec_sequence eng st oversz).tr := by
  have hseq : dec_sequence eng st fmt = ⟨st, false, []⟩ := by
    unfold dec_sequence
    simp [hbd]
  refine ⟨hseq, ?_, ?_⟩
  · unfold runParse
    simp [hseq]
  · unfold dec_sequence
    simp [hov0, hinit, dec_init_create_mem]

/-- Witness for C10: a 10-bit sequence on a fresh session is rejected with
no effect; a 5000-pixel-wide 8-bit one still creates the decoder. -/
theorem c10_bitdepth_w :
    dec_sequence engBase freshSession fmtBad = ⟨freshSession, false, []⟩ ∧
    runParse engBase freshSession ⟨0, some fmtBad, some (0, ⟨1, 1⟩)⟩ =
      (freshSession, 0, []) ∧
    EngAct.createDecoderAct 5000 16 5000 16 true
      ∈ (dec_sequence engBase freshSession fmtOversz).tr :=
  c10_bitdepth engBase freshSession fmtBad fmtOversz (0, ⟨1, 1⟩) 0
    (by decide) (by decide) (by decide) (by decide)

/-! ## C2 — pending-empty flag (counterexample part) -/

/-- C2 fails as stated: on the second of two consecutive submissions that
resolve no picture, the code returns NVPIPE_EINVAL (InvalidArgument) —
there is no distinct EmptyStream error value in the implementation; the
resubmission does happen exactly once. -/
theorem c2_counterexample :
    (nvp_cuvid_decode engEmpty 2 0 freshSession 9 16 16).err = NvpErr.einval ∧
    (nvp_cuvid_decode engEmpty 2 0 freshSession 9 16 16).err ≠ NvpErr.emptyStream ∧
    (nvp_cuvid_decode engEmpty 2 0 freshSession 9 16 16).resubmits = 1 := by
  decide

/-! ## C3 — recursion bound (counterexample part) -/

/-- C3 fails as stated: against an engine whose decode callback reports a
new picture size on every submission of the very same packet, a single
decode call resubmits without bound — here 10 resubmissions within one
call, and the fuel of 10 is still exhausted — far beyond the claimed bound
of two. -/
theorem c3_counterexample :
    (nvp_cuvid_decode engGrow 10 0 freshSession 9 16 16).resubmits = 10 ∧
    (nvp_cuvid_decode engGrow 10 0 freshSession 9 16 16).fuelOut = true := by
  decide

/-! ## C8 — error taxonomy (counterexample part) -/

/-- C8 fails as stated: a frame-mapping failure with platform code 999 is
returned to the caller as that raw code, which is none of the taxonomy
errors. -/
theorem c8_counterexample :
    (nvp_cuvid_decode engMapFail 1 0 stSteady 9 16 16).err = NvpErr.raw 999 ∧
    NvpErr.raw 999 ≠ NvpErr.success ∧
    NvpErr.raw 999 ≠ NvpErr.einval ∧
    NvpErr.raw 999 ≠ NvpErr.esetup ∧
    NvpErr.raw 999 ≠ NvpErr.edecode ∧
    NvpErr.raw 999 ≠ NvpErr.emptyStream := by
  decide

/-! ## C9 — destruction (counterexample part) -/

/-- C9 fails as stated: destroying a session with every handle live does
release decoder, parser, buffer and converter in that order, but the
decoder, parser and buffer handles are still set (not nulled) when the
session memory is freed; only the converter handle is cleared. -/
theorem c9_counterexample :
    (nvp_cuvid_destroy stFull).2 =
      [EngAct.destroyDecoderAct, EngAct.destroyParserAct, EngAct.memFreeAct,
       EngAct.reorgDestroyAct, EngAct.freeSessionAct] ∧
    (nvp_cuvid_destroy stFull).1.decoder = true ∧
    (nvp_cuvid_destroy stFull).1.parser = true ∧
    (nvp_cuvid_destroy stFull).1.rgb = some 768 ∧
    (nvp_cuvid_destroy stFull).1.reorg = false := by
  decide

/-- C9 (amended): session destruction releases decoder, parser, buffer
(the buffer free is attempted even when the pointer is null) and converter
in that order — the trace is always an ordered sublist of that sequence
followed by freeing the session itself — each guarded release happening
exactly when its handle is live; release failures are tolerated (the
function has no failure outcome).  Only the converter handle is nulled;
decoder, parser and buffer keep their values until the session memory is
freed, double release being prevented by that free, not by nulling. -/
theorem c9_destroy_order (st : NvpDecoder) :
    ((nvp_cuvid_destroy st).2).Sublist
        [EngAct.destroyDecoderAct, EngAct.destroyParserAct, EngAct.memFreeAct,
         EngAct.reorgDestroyAct, EngAct.freeSessionAct] ∧
    EngAct.memFreeAct ∈ (nvp_cuvid_destroy st).2 ∧
    (nvp_cuvid_destroy st).2.getLast? = some EngAct.freeSessionAct ∧
    (st.decoder = true → EngAct.destroyDecoderAct ∈ (nvp_cuvid_destroy st).2) ∧
    (st.parser = true → EngAct.destroyParserAct ∈ (nvp_cuvid_destroy st).2) ∧
    (st.reorg = true → EngAct.reorgDestroyAct ∈ (nvp_cuvid_destroy st).2) ∧
    (nvp_cuvid_destroy st).1 = { st with reorg := false } := by
  have hstate : (nvp_cuvid_destroy st).1 = { st with reorg := false } := by
    unfold nvp_cuvid_destroy
    by_cases h3 : st.reorg = true
    · simp [h3]
    · have h3' : st.reorg = false := by simp_all
      simp only [h3', Bool.false_eq_true, if_false]
      rw [← h3']
  refine ⟨?_, ?_, ?_, ?_, ?_, ?_, hstate⟩ <;>
    unfold nvp_cuvid_destroy <;>
    by_cases h1 : st.decoder = true <;> by_cases h2 : st.parser = true <;>
    by_cases h3 : st.reorg = true <;>
    simp [h1, h2, h3]

/-- Witness for C9 (amended) at a concrete session with a live decoder. -/
theorem c9_destroy_order_w :
    EngAct.destroyDecoderAct ∈ (nvp_cuvid_destroy stFull).2 :=
  (c9_destroy_order stFull).2.2.2.1 rfl

/-! ## C7 — a mapped picture is always unmapped -/

/-- C7: in the steady-state path (the submission reports the sizes the
decoder was created with), once the picture is mapped successfully, decode
unmaps it before returning on every outcome — conversion, copy and
synchronization failures included (the trace always ends with the unmap
call) — and what is returned is the first encountered error, or success;
the unmap call's own result (`eng.unmapRes`, unconstrained here) never
changes the returned value. -/
theorem c7_unmap_always (eng : Engine) (fuel k : Nat) (st : NvpDecoder)
    (a w h pw ph : Nat)
    (hdec : st.isDecoder = true) (hp : st.parser = true)
    (ha : a ≠ 0) (hw : w ≠ 0) (hh : h ≠ 0) (hh2 : h % 2 = 0)
    (hev : eng.parses k = picEvent pw ph)
    (hpw : pw ≠ 0) (hph : ph ≠ 0)
    (hwi : st.d.wi = pw * 16) (hhi : st.d.hi = ph * 16)
    (hwd : st.d.wdst = w) (hhd : st.d.hdst = h)
    (hmap : eng.mapRes = 0) :
    (nvp_cuvid_decode eng (fuel + 1) k st a w h).resubmits = 0 ∧
    EngAct.mapFrameAct ∈ (nvp_cuvid_decode eng (fuel + 1) k st a w h).tr ∧
    (nvp_cuvid_decode eng (fuel + 1) k st a w h).tr.getLast? =
      some EngAct.unmapFrameAct ∧
    (nvp_cuvid_decode eng (fuel + 1) k st a w h).err =
      (if eng.subRes ≠ 0 then NvpErr.raw eng.subRes
       else if eng.copyRes ≠ 0 then NvpErr.raw eng.copyRes
       else if eng.syncRes ≠ 0 then NvpErr.raw eng.syncRes
       else NvpErr.success) := by
  have hst1 : ({ st with parser := true } : NvpDecoder) = st := by rw [← hp]
  have hz : pw * 16 ≠ 0 := Nat.mul_ne_zero hpw (by norm_num)
  have hz2 : ph * 16 ≠ 0 := Nat.mul_ne_zero hph (by norm_num)
  have hh1 : ¬ h % 2 = 1 := by omega
  unfold nvp_cuvid_decode
  rw [hev]
  unfold decode_step
  rw [hst1]
  by_cases hsub : eng.subRes ≠ 0 <;> by_cases hcopy : eng.copyRes ≠ 0 <;>
    by_cases hsync : eng.syncRes ≠ 0 <;>
    simp [runParse_picEvent, hdec, hp, ha, hw, hh, hh1, hz, hz2, hwi, hhi,
          hwd, hhd, hmap, hsub, hcopy, hsync]

/-- Witness for C7 at a concrete steady-state call on an all-success
engine. -/
theorem c7_unmap_always_w :
    (nvp_cuvid_decode engOne 1 0 stSteady 9 16 16).resubmits = 0 ∧
    EngAct.mapFrameAct ∈ (nvp_cuvid_decode engOne 1 0 stSteady 9 16 16).tr ∧
    (nvp_cuvid_decode engOne 1 0 stSteady 9 16 16).tr.getLast? =
      some EngAct.unmapFrameAct ∧
    (nvp_cuvid_decode engOne 1 0 stSteady 9 16 16).err =
      (if engOne.subRes ≠ 0 then NvpErr.raw engOne.subRes
       else if engOne.copyRes ≠ 0 then NvpErr.raw engOne.copyRes
       else if engOne.syncRes ≠ 0 then NvpErr.raw engOne.syncRes
       else NvpErr.success) :=
  c7_unmap_always engOne 0 0 stSteady 9 16 16 1 1 rfl rfl (by decide) (by decide)
    (by decide) (by decide) rfl (by decide) (by decide) (by decide) (by decide)
    rfl rfl rfl

/-- A submission whose parse call fails yields `NVPIPE_EDECODE` from the
whole decode call (decode.c line 306). -/
theorem parse_fail_edecode (eng : Engine) (fuel k : Nat) (st : NvpDecoder)
    (a w h : Nat)
    (hdec : st.isDecoder = true) (hp : st.parser = true)
    (ha : a ≠ 0) (hw : w ≠ 0) (hh : h ≠ 0) (hh2 : h % 2 = 0)
    (hres : (eng.parses k).result ≠ 0) :
    (nvp_cuvid_decode eng (fuel + 1) k st a w h).err = NvpErr.edecode := by
  have hst1 : ({ st with parser := true } : NvpDecoder) = st := by rw [← hp]
  have hh1 : ¬ h % 2 = 1 := by omega
  have hq := runParse_result eng st (eng.parses k)
  unfold nvp_cuvid_decode decode_step
  rw [hst1]
  simp [hdec, hp, ha, hw, hh, hh1, hq, hres]

/-- In the steady-state path, the decode call returns the first failing
engine result of map, convert, copy, sync — untranslated — or success. -/
theorem steady_decode_err (eng : Engine) (fuel k : Nat) (st : NvpDecoder)
    (a w h pw ph : Nat)
    (hdec : st.isDecoder = true) (hp : st.parser = true)
    (ha : a ≠ 0) (hw : w ≠ 0) (hh : h ≠ 0) (hh2 : h % 2 = 0)
    (hev : eng.parses k = picEvent pw ph)
    (hpw : pw ≠ 0) (hph : ph ≠ 0)
    (hwi : st.d.wi = pw * 16) (hhi : st.d.hi = ph * 16)
    (hwd : st.d.wdst = w) (hhd : st.d.hdst = h) :
    (nvp_cuvid_decode eng (fuel + 1) k st a w h).err =
      (if eng.mapRes ≠ 0 then NvpErr.raw eng.mapRes
       else if eng.subRes ≠ 0 then NvpErr.raw eng.subRes
       else if eng.copyRes ≠ 0 then NvpErr.raw eng.copyRes
       else if eng.syncRes ≠ 0 then NvpErr.raw eng.syncRes
       else NvpErr.success) := by
  have hst1 : ({ st with parser := true } : NvpDecoder) = st := by rw [← hp]
  have hz : pw * 16 ≠ 0 := Nat.mul_ne_zero hpw (by norm_num)
  have hz2 : ph * 16 ≠ 0 := Nat.mul_ne_zero hph (by norm_num)
  have hh1 : ¬ h % 2 = 1 := by omega
  unfold nvp_cuvid_decode
  rw [hev]
  unfold decode_step
  rw [hst1]
  by_cases hmapc : eng.mapRes ≠ 0 <;> by_cases hsub : eng.subRes ≠ 0 <;>
    by_cases hcopy : eng.copyRes ≠ 0 <;> by_cases hsync : eng.syncRes ≠ 0 <;>
    simp [runParse_picEvent, hdec, hp, ha, hw, hh, hh1, hz, hz2, hwi, hhi,
          hwd, hhd, hmapc, hsub, hcopy, hsync]

/-! ## C8 — error conversion at the engine boundary -/

/-- C8 (amended): a packet-parsing failure is converted at its boundary (to
NVPIPE_EDECODE) and argument violations to NVPIPE_EINVAL, but failures of
picture mapping, format conversion, host copy and synchronization are NOT
converted: the raw platform result code of the failing call is returned to
the caller as decode's value. -/
theorem c8_error_codes (eng eng2 : Engine) (fuel k : Nat) (st : NvpDecoder)
    (a w h pw ph : Nat)
    (hdec : st.isDecoder = true) (hp : st.parser = true)
    (ha : a ≠ 0) (hw : w ≠ 0) (hh : h ≠ 0) (hh2 : h % 2 = 0)
    (hev : eng.parses k = picEvent pw ph)
    (hpw : pw ≠ 0) (hph : ph ≠ 0)
    (hwi : st.d.wi = pw * 16) (hhi : st.d.hi = ph * 16)
    (hwd : st.d.wdst = w) (hhd : st.d.hdst = h)
    (hres2 : (eng2.parses k).result ≠ 0) :
    (nvp_cuvid_decode eng2 (fuel + 1) k st a w h).err = NvpErr.edecode ∧
    (eng.mapRes ≠ 0 →
      (nvp_cuvid_decode eng (fuel + 1) k st a w h).err = NvpErr.raw eng.mapRes) ∧
    (eng.mapRes = 0 → eng.subRes ≠ 0 →
      (nvp_cuvid_decode eng (fuel + 1) k st a w h).err = NvpErr.raw eng.subRes) ∧
    (eng.mapRes = 0 → eng.subRes = 0 → eng.copyRes ≠ 0 →
      (nvp_cuvid_decode eng (fuel + 1) k st a w h).err = NvpErr.raw eng.copyRes) ∧
    (eng.mapRes = 0 → eng.subRes = 0 → eng.copyRes = 0 → eng.syncRes ≠ 0 →
      (nvp_cuvid_decode eng (fuel + 1) k st a w h).err = NvpErr.raw eng.syncRes) := by
  have herr := steady_decode_err eng fuel k st a w h pw ph hdec hp ha hw hh hh2
    hev hpw hph hwi hhi hwd hhd
  refine ⟨parse_fail_edecode eng2 fuel k st a w h hdec hp ha hw hh hh2 hres2,
          ?_, ?_, ?_, ?_⟩
  · intro h1
    rw [herr]
    simp [h1]
  · intro h1 h2
    rw [herr]
    simp [h1, h2]
  · intro h1 h2 h3
    rw [herr]
    simp [h1, h2, h3]
  · intro h1 h2 h3 h4
    rw [herr]
    simp [h1, h2, h3, h4]

/-- Witness for C8 (amended): the map-failure engine and the parse-failure
engine at a concrete steady session. -/
theorem c8_error_codes_w :
    (nvp_cuvid_decode engParseFail 1 0 stSteady 9 16 16).err = NvpErr.edecode ∧
    (nvp_cuvid_decode engMapFail 1 0 stSteady 9 16 16).err = NvpErr.raw 999 := by
  have h := c8_error_codes engMapFail engParseFail 0 0 stSteady 9 16 16 1 1
    rfl rfl (by decide) (by decide) (by decide) (by decide) rfl (by decide)
    (by decide) (by decide) (by decide) rfl rfl (by decide)
  exact ⟨h.1, h.2.1 (by decide)⟩

/-- `resize` never touches the observed stream size, the pending-empty
flag, the session type or the parser handle, whatever the engine does. -/
theorem resize_preserve (eng : Engine) (st : NvpDecoder) (sw sh w h : Nat) :
    (resize eng st sw sh w h).1.d.wsrc = st.d.wsrc ∧
    (resize eng st sw sh w h).1.d.hsrc = st.d.hsrc ∧
    (resize eng st sw sh w h).1.empty = st.empty ∧
    (resize eng st sw sh w h).1.isDecoder = st.isDecoder ∧
    (resize eng st sw sh w h).1.parser = st.parser := by
  have h1 := dec_init_preserve eng { st with decoder := false } sw sh w h
  unfold resize
  simp only at h1 ⊢
  exact h1

/-! ## C2 — the pending-empty flag (amended) -/

/-- C2 (amended): when a submission resolves no picture size and the
pending-empty flag is clear, decode sets the flag and resubmits the
identical packet exactly once; when the flag is already set, decode fails
immediately — with NVPIPE_EINVAL (InvalidArgument): the implementation has
no distinct EmptyStream error value — without resubmitting, so two
consecutive no-picture submissions yield that error on the second, not
unbounded recursion; and any submission that does resolve a size leaves
the flag cleared. -/
theorem c2_empty_flag (eng eng3 : Engine) (fuel k : Nat) (st : NvpDecoder)
    (a w h pw ph : Nat)
    (hdec : st.isDecoder = true) (hp : st.parser = true)
    (ha : a ≠ 0) (hw : w ≠ 0) (hh : h ≠ 0) (hh2 : h % 2 = 0)
    (hev0 : eng.parses k = ⟨0, none, none⟩)
    (hev1 : eng.parses (k + 1) = ⟨0, none, none⟩)
    (hsz : st.d.wsrc = 0 ∨ st.d.hsrc = 0)
    (hpw : pw ≠ 0) (hph : ph ≠ 0) :
    (st.empty = false →
      nvp_cuvid_decode eng (fuel + 1 + 1) k st a w h =
        ⟨NvpErr.einval, { st with empty := true },
         [EngAct.parseData a, EngAct.parseData a], 1, k + 2, false⟩) ∧
    (st.empty = true →
      nvp_cuvid_decode eng (fuel + 1) k st a w h =
        ⟨NvpErr.einval, st, [EngAct.parseData a], 0, k + 1, false⟩) ∧
    (decode_step eng3 (picEvent pw ph) st a w h).state.empty = false := by
  have hh1 : ¬ h % 2 = 1 := by omega
  have hz : pw * 16 ≠ 0 := Nat.mul_ne_zero hpw (by norm_num)
  have hz2 : ph * 16 ≠ 0 := Nat.mul_ne_zero hph (by norm_num)
  refine ⟨?_, ?_, ?_⟩
  · intro hempty
    simp only [nvp_cuvid_decode, hev0, hev1, decode_step, runParse_none]
    rcases hsz with h0 | h0 <;>
      simp [hdec, hp, ha, hw, hh, hh1, h0, hempty]
  · intro hempty
    rcases st with ⟨s1, s2, s3, s4, s5, s6, s7, s8⟩
    simp only [nvp_cuvid_decode, hev0, decode_step, runParse_none]
    rcases hsz with h0 | h0 <;>
      simp_all
  · have hrp := resize_preserve
    unfold decode_step
    simp only [runParse_picEvent, hdec, hp, ha, hw, hh, hh1]
    simp only [ne_eq, Bool.not_eq_true]
    simp [hdec, hp, ha, hw, hh, hh1, hz, hz2]
    split_ifs <;>
      simp_all [StepOut.state, resize_preserve]

/-- Witness for C2 (amended): two empty submissions on a fresh session set
the flag, resubmit once and fail with NVPIPE_EINVAL. -/
theorem c2_empty_flag_w :
    nvp_cuvid_decode engEmpty 2 0 stParsed 9 16 16 =
      ⟨NvpErr.einval, { stParsed with empty := true },
       [EngAct.parseData 9, EngAct.parseData 9], 1, 2, false⟩ :=
  (c2_empty_flag engEmpty engOne 0 0 stParsed 9 16 16 1 1 rfl rfl
    (by decide) (by decide) (by decide) (by decide) rfl rfl (Or.inl rfl)
    (by decide) (by decide)).1 rfl

/-- Unfolding of a decode call whose first submission attempt resubmits. -/
theorem decode_succ_again (eng : Engine) (fuel k : Nat) (st : NvpDecoder)
    (a w h : Nat) (st1 : NvpDecoder) (tr : List EngAct)
    (hstep : decode_step eng (eng.parses k) st a w h = .again st1 tr) :
    nvp_cuvid_decode eng (fuel + 1) k st a w h =
      ⟨(nvp_cuvid_decode eng fuel (k + 1) st1 a w h).err,
       (nvp_cuvid_decode eng fuel (k + 1) st1 a w h).st,
       tr ++ (nvp_cuvid_decode eng fuel (k + 1) st1 a w h).tr,
       (nvp_cuvid_decode eng fuel (k + 1) st1 a w h).resubmits + 1,
       (nvp_cuvid_decode eng fuel (k + 1) st1 a w h).kOut,
       (nvp_cuvid_decode eng fuel (k + 1) st1 a w h).fuelOut⟩ := by
  conv_lhs => simp only [nvp_cuvid_decode]
  rw [hstep]

/-- Full computation of a decode call in the steady state against an
all-success engine: one submission, no resubmission, the RGB copy of
`w*h*3` bytes, and success. -/
theorem steady_decode_full (eng : Engine) (fuel k : Nat) (st : NvpDecoder)
    (a w h pw ph : Nat)
    (hdec : st.isDecoder = true) (hp : st.parser = true)
    (ha : a ≠ 0) (hw : w ≠ 0) (hh : h ≠ 0) (hh2 : h % 2 = 0)
    (hev : eng.parses k = picEvent pw ph)
    (hpw : pw ≠ 0) (hph : ph ≠ 0)
    (hwi : st.d.wi = pw * 16) (hhi : st.d.hi = ph * 16)
    (hwd : st.d.wdst = w) (hhd : st.d.hdst = h)
    (hmap : eng.mapRes = 0) (hsub : eng.subRes = 0)
    (hcopy : eng.copyRes = 0) (hsync : eng.syncRes = 0) :
    nvp_cuvid_decode eng (fuel + 1) k st a w h =
      ⟨NvpErr.success,
       { st with d := { st.d with wsrc := pw * 16, hsrc := ph * 16 },
                 empty := false, reorg := true },
       [EngAct.parseData a, EngAct.decodePictureAct, EngAct.mapFrameAct,
        EngAct.convertSubmitAct, EngAct.copyDtoHAct (w * h * 3),
        EngAct.syncAct, EngAct.unmapFrameAct], 0, k + 1, false⟩ := by
  have hz : pw * 16 ≠ 0 := Nat.mul_ne_zero hpw (by norm_num)
  have hz2 : ph * 16 ≠ 0 := Nat.mul_ne_zero hph (by norm_num)
  have hh1 : ¬ h % 2 = 1 := by omega
  rcases st with ⟨s1, s2, s3, s4, ⟨d1, d2, d3, d4, d5, d6⟩, s6, s7, s8⟩
  simp only at hdec hp hwi hhi hwd hhd
  unfold nvp_cuvid_decode
  rw [hev]
  unfold decode_step
  simp [runParse_picEvent, hdec, hp, ha, hw, hh, hh1, hz, hz2, hwi, hhi,
        hwd, hhd, hmap, hsub, hcopy, hsync]

/-- The decoder-destroy call appears in the resize trace when a decoder is
live. -/
theorem resize_tr_destroy (eng : Engine) (st : NvpDecoder) (sw sh w h : Nat)
    (hd : st.decoder = true) :
    EngAct.destroyDecoderAct ∈ (resize eng st sw sh w h).2 := by
  unfold resize
  simp [hd]

/-- The decoder-create attempt, at the sizes the resize was asked for,
appears in the resize trace. -/
theorem resize_tr_create (eng : Engine) (st : NvpDecoder) (sw sh w h : Nat) :
    EngAct.createDecoderAct sw sh w h eng.createOk ∈ (resize eng st sw sh w h).2 := by
  unfold resize
  simp [dec_init_create_mem]

/-- A resize never submits a packet: no parse action in its trace. -/
theorem resize_tr_no_parse (eng : Engine) (st : NvpDecoder) (sw sh w h a : Nat) :
    EngAct.parseData a ∉ (resize eng st sw sh w h).2 := by
  unfold resize dec_init dec_init_buffer dec_init_alloc
  by_cases h1 : st.decoder = true <;> by_cases hc : eng.createOk = true <;>
    by_cases hd : w ≠ st.d.wdst ∨ h ≠ st.d.hdst <;>
    by_cases hf : eng.freeOk = true <;> by_cases hal : eng.allocOk = true <;>
    rcases hr : st.rgb with _ | nb <;>
    simp [h1, hc, hd, hf, hal, hr]

/-! ## C1 — resize and resubmit exactly once -/

/-- C1: when the submission reports a picture size and it differs from the
created input size, or the requested output size differs from the created
output size, decode destroys the live decoder, recreates it with input
size = the observed stream size and output size = the requested size,
resubmits the identical packet exactly once (two parse calls of the same
packet in total, one resubmission), and then produces output successfully;
afterwards the recorded created input size equals the new coded size and
the created output size equals the request.  The engine is assumed
well-behaved: its calls succeed and the resubmitted identical packet
reports the same picture size. -/
theorem c1_resize_resubmit (eng : Engine) (fuel k : Nat) (st : NvpDecoder)
    (a w h pw ph : Nat)
    (hdec : st.isDecoder = true) (hp : st.parser = true) (hdr : st.decoder = true)
    (ha : a ≠ 0) (hw : w ≠ 0) (hh : h ≠ 0) (hh2 : h % 2 = 0)
    (hev0 : eng.parses k = picEvent pw ph)
    (hev1 : eng.parses (k + 1) = picEvent pw ph)
    (hpw : pw ≠ 0) (hph : ph ≠ 0)
    (hc : eng.createOk = true) (hf : eng.freeOk = true) (hal : eng.allocOk = true)
    (hmap : eng.mapRes = 0) (hsub : eng.subRes = 0)
    (hcopy : eng.copyRes = 0) (hsync : eng.syncRes = 0)
    (hmis : pw * 16 ≠ st.d.wi ∨ ph * 16 ≠ st.d.hi ∨ st.d.wdst ≠ w ∨ st.d.hdst ≠ h) :
    (nvp_cuvid_decode eng (fuel + 1 + 1) k st a w h).err = NvpErr.success ∧
    (nvp_cuvid_decode eng (fuel + 1 + 1) k st a w h).resubmits = 1 ∧
    (nvp_cuvid_decode eng (fuel + 1 + 1) k st a w h).fuelOut = false ∧
    (nvp_cuvid_decode eng (fuel + 1 + 1) k st a w h).st.d.wi = pw * 16 ∧
    (nvp_cuvid_decode eng (fuel + 1 + 1) k st a w h).st.d.hi = ph * 16 ∧
    (nvp_cuvid_decode eng (fuel + 1 + 1) k st a w h).st.d.wdst = w ∧
    (nvp_cuvid_decode eng (fuel + 1 + 1) k st a w h).st.d.hdst = h ∧
    EngAct.destroyDecoderAct ∈ (nvp_cuvid_decode eng (fuel + 1 + 1) k st a w h).tr ∧
    EngAct.createDecoderAct (pw * 16) (ph * 16) w h true
      ∈ (nvp_cuvid_decode eng (fuel + 1 + 1) k st a w h).tr ∧
    (nvp_cuvid_decode eng (fuel + 1 + 1) k st a w h).tr.count
      (EngAct.parseData a) = 2 := by
  have hst1 : ({ st with parser := true } : NvpDecoder) = st := by rw [← hp]
  have hz : pw * 16 ≠ 0 := Nat.mul_ne_zero hpw (by norm_num)
  have hz2 : ph * 16 ≠ 0 := Nat.mul_ne_zero hph (by norm_num)
  have hh1 : ¬ h % 2 = 1 := by omega
  have hstep1 : decode_step eng (eng.parses k) st a w h =
      .again (resize eng { st with d := { st.d with wsrc := pw * 16, hsrc := ph * 16 }, empty := false } (pw * 16) (ph * 16) w h).1
        (EngAct.parseData a :: EngAct.decodePictureAct :: (resize eng { st with d := { st.d with wsrc := pw * 16, hsrc := ph * 16 }, empty := false } (pw * 16) (ph * 16) w h).2) := by
    rw [hev0]
    unfold decode_step
    rw [hst1]
    rcases hmis with hm | hm | hm | hm <;>
      simp [runParse_picEvent, hdec, hp, ha, hw, hh, hh1, hz, hz2, hm]
  have hok := resize_ok eng { st with d := { st.d with wsrc := pw * 16, hsrc := ph * 16 }, empty := false } (pw * 16) (ph * 16) w h hc hf hal
  have hpre := resize_preserve eng { st with d := { st.d with wsrc := pw * 16, hsrc := ph * 16 }, empty := false } (pw * 16) (ph * 16) w h
  have hsd : (resize eng { st with d := { st.d with wsrc := pw * 16, hsrc := ph * 16 }, empty := false } (pw * 16) (ph * 16) w h).1.isDecoder = true := by
    rw [hpre.2.2.2.1]
    simp [hdec]
  have hps : (resize eng { st with d := { st.d with wsrc := pw * 16, hsrc := ph * 16 }, empty := false } (pw * 16) (ph * 16) w h).1.parser = true := by
    rw [hpre.2.2.2.2]
    simp [hp]
  have hrec := steady_decode_full eng fuel (k + 1)
    (resize eng { st with d := { st.d with wsrc := pw * 16, hsrc := ph * 16 }, empty := false } (pw * 16) (ph * 16) w h).1 a w h pw ph
    hsd hps ha hw hh hh2 hev1 hpw hph hok.1 hok.2.1 hok.2.2.1 hok.2.2.2.1
    hmap hsub hcopy hsync
  have hd3 : ({ st with d := { st.d with wsrc := pw * 16, hsrc := ph * 16 }, empty := false } : NvpDecoder).decoder = true := by
    simp [hdr]
  have hdestroy := resize_tr_destroy eng { st with d := { st.d with wsrc := pw * 16, hsrc := ph * 16 }, empty := false } (pw * 16) (ph * 16) w h hd3
  have hcreate := resize_tr_create eng { st with d := { st.d with wsrc := pw * 16, hsrc := ph * 16 }, empty := false } (pw * 16) (ph * 16) w h
  rw [hc] at hcreate
  have hnp := resize_tr_no_parse eng { st with d := { st.d with wsrc := pw * 16, hsrc := ph * 16 }, empty := false } (pw * 16) (ph * 16) w h a
  have main := decode_succ_again eng (fuel + 1) k st a w h _ _ hstep1
  rw [hrec] at main
  refine ⟨?_, ?_, ?_, ?_, ?_, ?_, ?_, ?_, ?_, ?_⟩ <;> rw [main]
  · simp [hok.1]
  · simp [hok.2.1]
  · simp [hok.2.2.1]
  · simp [hok.2.2.2.1]
  · simp [hdestroy]
  · simp [hcreate]
  · simp [List.count_cons, List.count_append, List.count_eq_zero.mpr hnp]

/-- Witness for C1: a steady 16×16 session receives a packet whose picture
is 32×16; one resize-and-resubmit, then success, with the created input
width updated to 32. -/
theorem c1_resize_resubmit_w :
    (nvp_cuvid_decode engResize 2 0 stSteady 9 16 16).err = NvpErr.success ∧
    (nvp_cuvid_decode engResize 2 0 stSteady 9 16 16).resubmits = 1 ∧
    (nvp_cuvid_decode engResize 2 0 stSteady 9 16 16).st.d.wi = 32 :=
  have h := c1_resize_resubmit engResize 0 0 stSteady 9 16 16 2 1 rfl rfl rfl
    (by decide) (by decide) (by decide) (by decide) rfl rfl (by decide)
    (by decide) rfl rfl rfl rfl rfl rfl rfl (Or.inl (by decide))
  ⟨h.1, h.2.1, h.2.2.2.1⟩

/-- When the requested output size differs from the recorded one and the
engine's free/alloc succeed, `dec_initialize` reallocates the RGB buffer to
the new `dw*dh*3` bytes, freeing the old buffer first when one is live. -/
theorem dec_init_realloc (eng : Engine) (st : NvpDecoder) (iw ih dw dh : Nat)
    (hc : eng.createOk = true) (hf : eng.freeOk = true) (hal : eng.allocOk = true)
    (hd : dw ≠ st.d.wdst ∨ dh ≠ st.d.hdst) :
    (dec_init eng st iw ih dw dh).st.rgb = some (dw * dh * 3) ∧
    (st.rgb.isSome = true →
      EngAct.memFreeAct ∈ (dec_init eng st iw ih dw dh).tr) ∧
    EngAct.memAllocAct (dw * dh * 3) true ∈ (dec_init eng st iw ih dw dh).tr := by
  unfold dec_init dec_init_buffer dec_init_alloc
  rcases hd with hd | hd <;> rcases hr : st.rgb with _ | nb <;>
    simp [hc, hf, hal, hd, hr]

/-- When the requested output size equals the recorded one,
`dec_initialize` neither frees nor allocates: the buffer handle is
untouched and no memory call is made. -/
theorem dec_init_norealloc (eng : Engine) (st : NvpDecoder) (iw ih dw dh : Nat)
    (hd : dw = st.d.wdst ∧ dh = st.d.hdst) :
    (dec_init eng st iw ih dw dh).st.rgb = st.rgb ∧
    EngAct.memFreeAct ∉ (dec_init eng st iw ih dw dh).tr ∧
    (∀ nb b, EngAct.memAllocAct nb b ∉ (dec_init eng st iw ih dw dh).tr) := by
  obtain ⟨h1, h2⟩ := hd
  unfold dec_init dec_init_buffer dec_init_alloc
  by_cases hc : eng.createOk = true <;> simp [hc, h1, h2]

/-- A successful resize to a changed output size leaves the session with an
RGB buffer of the new output's byte size. -/
theorem resize_rgb (eng : Engine) (st : NvpDecoder) (sw sh w h : Nat)
    (hc : eng.createOk = true) (hf : eng.freeOk = true) (hal : eng.allocOk = true)
    (hd : w ≠ st.d.wdst ∨ h ≠ st.d.hdst) :
    (resize eng st sw sh w h).1.rgb = some (w * h * 3) := by
  have h1 := dec_init_realloc eng { st with decoder := false } sw sh w h hc hf hal
    (by simpa using hd)
  unfold resize
  simp only at h1 ⊢
  exact h1.1

/-! ## C4 — buffer reallocation policy -/

/-- C4: on a decoder (re)initialization with a live buffer, the RGB buffer
is freed and reallocated to the new `dw*dh*3` bytes exactly when the
requested output size differs from the recorded created output size, and
left untouched (no free, no alloc) when it does not differ; consequently a
decode call that changes only the requested output size (the coded stream
size staying equal to the created input size) reallocates the buffer to
the new size and leaves the recorded created input size unchanged. -/
theorem c4_buffer_realloc (eng : Engine) (fuel k : Nat) (st st2 : NvpDecoder)
    (iw ih dw dh aB wB hB pw ph : Nat)
    (hc : eng.createOk = true) (hf : eng.freeOk = true) (hal : eng.allocOk = true)
    (hbuf : st.rgb.isSome = true)
    (hdec : st2.isDecoder = true) (hp : st2.parser = true)
    (haB : aB ≠ 0) (hwB : wB ≠ 0) (hhB : hB ≠ 0) (hhBe : hB % 2 = 0)
    (hev0 : eng.parses k = picEvent pw ph)
    (hev1 : eng.parses (k + 1) = picEvent pw ph)
    (hpw : pw ≠ 0) (hph : ph ≠ 0)
    (hmap : eng.mapRes = 0) (hsub : eng.subRes = 0)
    (hcopy : eng.copyRes = 0) (hsync : eng.syncRes = 0)
    (hwi : st2.d.wi = pw * 16) (hhi : st2.d.hi = ph * 16)
    (hreq : wB ≠ st2.d.wdst ∨ hB ≠ st2.d.hdst) :
    ((dw ≠ st.d.wdst ∨ dh ≠ st.d.hdst) →
      (dec_init eng st iw ih dw dh).st.rgb = some (dw * dh * 3) ∧
      EngAct.memFreeAct ∈ (dec_init eng st iw ih dw dh).tr ∧
      EngAct.memAllocAct (dw * dh * 3) true ∈ (dec_init eng st iw ih dw dh).tr) ∧
    ((dw = st.d.wdst ∧ dh = st.d.hdst) →
      (dec_init eng st iw ih dw dh).st.rgb = st.rgb ∧
      EngAct.memFreeAct ∉ (dec_init eng st iw ih dw dh).tr ∧
      (∀ nb b, EngAct.memAllocAct nb b ∉ (dec_init eng st iw ih dw dh).tr)) ∧
    ((nvp_cuvid_decode eng (fuel + 1 + 1) k st2 aB wB hB).st.d.wi = st2.d.wi ∧
     (nvp_cuvid_decode eng (fuel + 1 + 1) k st2 aB wB hB).st.d.hi = st2.d.hi ∧
     (nvp_cuvid_decode eng (fuel + 1 + 1) k st2 aB wB hB).st.rgb =
       some (wB * hB * 3) ∧
     (nvp_cuvid_decode eng (fuel + 1 + 1) k st2 aB wB hB).st.d.wdst = wB ∧
     (nvp_cuvid_decode eng (fuel + 1 + 1) k st2 aB wB hB).st.d.hdst = hB) := by
  refine ⟨?_, ?_, ?_⟩
  · intro hd
    have h1 := dec_init_realloc eng st iw ih dw dh hc hf hal hd
    exact ⟨h1.1, h1.2.1 hbuf, h1.2.2⟩
  · intro hd
    exact dec_init_norealloc eng st iw ih dw dh hd
  · have hst1 : ({ st2 with parser := true } : NvpDecoder) = st2 := by rw [← hp]
    have hz : pw * 16 ≠ 0 := Nat.mul_ne_zero hpw (by norm_num)
    have hz2 : ph * 16 ≠ 0 := Nat.mul_ne_zero hph (by norm_num)
    have hh1 : ¬ hB % 2 = 1 := by omega
    have hmis : pw * 16 ≠ st2.d.wi ∨ ph * 16 ≠ st2.d.hi ∨
        st2.d.wdst ≠ wB ∨ st2.d.hdst ≠ hB := by
      rcases hreq with hq | hq
      · exact Or.inr (Or.inr (Or.inl hq.symm))
      · exact Or.inr (Or.inr (Or.inr hq.symm))
    have hstep1 : decode_step eng (eng.parses k) st2 aB wB hB =
        .again (resize eng { st2 with d := { st2.d with wsrc := pw * 16, hsrc := ph * 16 }, empty := false } (pw * 16) (ph * 16) wB hB).1
          (EngAct.parseData aB :: EngAct.decodePictureAct :: (resize eng { st2 with d := { st2.d with wsrc := pw * 16, hsrc := ph * 16 }, empty := false } (pw * 16) (ph * 16) wB hB).2) := by
      rw [hev0]
      unfold decode_step
      rw [hst1]
      rcases hmis with hm | hm | hm | hm <;>
        simp [runParse_picEvent, hdec, hp, haB, hwB, hhB, hh1, hz, hz2, hm]
    have hok := resize_ok eng { st2 with d := { st2.d with wsrc := pw * 16, hsrc := ph * 16 }, empty := false } (pw * 16) (ph * 16) wB hB hc hf hal
    have hpre := resize_preserve eng { st2 with d := { st2.d with wsrc := pw * 16, hsrc := ph * 16 }, empty := false } (pw * 16) (ph * 16) wB hB
    have hsd : (resize eng { st2 with d := { st2.d with wsrc := pw * 16, hsrc := ph * 16 }, empty := false } (pw * 16) (ph * 16) wB hB).1.isDecoder = true := by
      rw [hpre.2.2.2.1]
      simp [hdec]
    have hps : (resize eng { st2 with d := { st2.d with wsrc := pw * 16, hsrc := ph * 16 }, empty := false } (pw * 16) (ph * 16) wB hB).1.parser = true := by
      rw [hpre.2.2.2.2]
      simp [hp]
    have hrgb : (resize eng { st2 with d := { st2.d with wsrc := pw * 16, hsrc := ph * 16 }, empty := false } (pw * 16) (ph * 16) wB hB).1.rgb = some (wB * hB * 3) := by
      refine resize_rgb eng _ (pw * 16) (ph * 16) wB hB hc hf hal ?_
      rcases hreq with hq | hq
      · exact Or.inl (by simpa using hq)
      · exact Or.inr (by simpa using hq)
    have hrec := steady_decode_full eng fuel (k + 1)
      (resize eng { st2 with d := { st2.d with wsrc := pw * 16, hsrc := ph * 16 }, empty := false } (pw * 16) (ph * 16) wB hB).1 aB wB hB pw ph
      hsd hps haB hwB hhB hhBe hev1 hpw hph hok.1 hok.2.1 hok.2.2.1 hok.2.2.2.1
      hmap hsub hcopy hsync
    have main := decode_succ_again eng (fuel + 1) k st2 aB wB hB _ _ hstep1
    rw [hrec] at main
    refine ⟨?_, ?_, ?_, ?_, ?_⟩ <;> rw [main]
    · simp only [hok.1]
      simp [hwi]
    · simp only [hok.2.1]
      simp [hhi]
    · simp only [hrgb]
    · simp only [hok.2.2.1]
    · simp only [hok.2.2.2.1]

/-- Witness for C4: growing the requested output from 16×16 to 32×32 on a
steady session reallocates the buffer to 32*32*3 bytes and leaves the
created input size at 16. -/
theorem c4_buffer_realloc_w :
    (dec_init engOne stSteady 16 16 32 32).st.rgb = some (32 * 32 * 3) ∧
    (nvp_cuvid_decode engOne 2 0 stSteady 9 32 32).st.rgb =
      some (32 * 32 * 3) ∧
    (nvp_cuvid_decode engOne 2 0 stSteady 9 32 32).st.d.wi = stSteady.d.wi :=
  have hh := c4_buffer_realloc engOne 0 0 stSteady stSteady 16 16 32 32 9 32 32
    1 1 rfl rfl rfl rfl rfl rfl (by decide) (by decide) (by decide)
    (by decide) rfl rfl (by decide) (by decide) rfl rfl rfl rfl (by decide)
    (by decide) (Or.inl (by decide))
  ⟨(hh.1 (Or.inl (by decide))).1, hh.2.2.2.2.1, hh.2.2.1⟩

/-! ## C5 — creation-time sizes change only with a decoder recreate -/

/-- `hasCreate` is monotone under list inclusion. -/
theorem hasCreate_sub {tr1 tr2 : List EngAct} (h : hasCreate tr1)
    (hsub : ∀ x, x ∈ tr1 → x ∈ tr2) : hasCreate tr2 := by
  obtain ⟨iw, ih, dw, dh, ok, hm⟩ := h
  exact ⟨iw, ih, dw, dh, ok, hsub _ hm⟩

/-- `dec_initialize` always records a decoder-create attempt. -/
theorem dec_init_hasCreate (eng : Engine) (st : NvpDecoder) (iw ih dw dh : Nat) :
    hasCreate (dec_init eng st iw ih dw dh).tr :=
  ⟨iw, ih, dw, dh, eng.createOk, dec_init_create_mem eng st iw ih dw dh⟩

/-- `resize` always records a decoder-create attempt. -/
theorem resize_hasCreate (eng : Engine) (st : NvpDecoder) (sw sh w h : Nat) :
    hasCreate (resize eng st sw sh w h).2 :=
  ⟨sw, sh, w, h, eng.createOk, resize_tr_create eng st sw sh w h⟩

/-- The sequence callback either leaves the four creation-time sizes alone
or its trace shows a decoder-create attempt. -/
theorem dec_sequence_sizes (eng : Engine) (st : NvpDecoder) (fmt : VideoFormat) :
    sizesQuad (dec_sequence eng st fmt).st = sizesQuad st ∨
    hasCreate (dec_sequence eng st fmt).tr := by
  unfold dec_sequence
  by_cases hb : fmt.bit_depth_luma_minus8 ≠ 0
  · simp [hb]
  · by_cases hi : st.initialized = true
    · simp [hb, hi]
    · right
      simp only [hb, hi]
      simp [dec_init_hasCreate]

/-- A submission either leaves the four creation-time sizes alone or its
trace shows a decoder-create attempt. -/
theorem runParse_sizes (eng : Engine) (st : NvpDecoder) (ev : ParseEvent) :
    sizesQuad (runParse eng st ev).1 = sizesQuad st ∨
    hasCreate (runParse eng st ev).2.2 := by
  unfold runParse
  rcases hs : ev.seq with _ | fmt <;> rcases hp : ev.pic with _ | rp <;>
    simp only [hs, hp]
  · left
    rfl
  · unfold dec_ode
    by_cases hr : rp.1 ≠ 0 <;> left <;> simp [hr, sizesQuad]
  · rcases dec_sequence_sizes eng st fmt with hq | hq <;>
      by_cases ho : (dec_sequence eng st fmt).ok
    · left
      simp [ho, hq]
    · left
      simp [ho, hq]
    · right
      simp [ho, hq]
    · right
      simp [ho, hq]
  · rcases dec_sequence_sizes eng st fmt with hq | hq <;>
      by_cases ho : (dec_sequence eng st fmt).ok
    · left
      unfold dec_ode
      by_cases hr : rp.1 ≠ 0 <;> simp [ho, hr, sizesQuad] <;>
        simpa [sizesQuad] using hq
    · left
      simp [ho, hq]
    · right
      unfold dec_ode
      by_cases hr : rp.1 ≠ 0 <;> simp only [ho, if_true] <;>
        refine hasCreate_sub hq ?_ <;> intro x hx <;> simp [hr, hx]
    · right
      simp [ho, hq]

/-- One submission attempt either leaves the four creation-time sizes of
the session alone or its trace shows a decoder-create attempt: nothing but
`dec_initialize` (reached via the sequence callback or via `resize`)
touches them. -/
theorem step_sizes (eng : Engine) (ev : ParseEvent) (st : NvpDecoder)
    (a w h : Nat) :
    sizesQuad (decode_step eng ev st a w h).state = sizesQuad st ∨
    hasCreate (decode_step eng ev st a w h).trace := by
  have hq := runParse_sizes eng { st with parser := true } ev
  have hq1 : sizesQuad ({ st with parser := true } : NvpDecoder) = sizesQuad st := rfl
  rw [hq1] at hq
  unfold decode_step
  by_cases h1 : st.isDecoder = true
  swap
  · left
    rw [if_pos h1]
    simp [StepOut.state]
  · rw [if_neg (show ¬¬st.isDecoder = true by simp [h1])]
    by_cases h2 : a = 0
    · left
      rw [if_pos h2]
      simp [StepOut.state]
    · rw [if_neg h2]
      by_cases h3 : w = 0 ∨ h = 0 ∨ h % 2 = 1
      · left
        rw [if_pos h3]
        simp [StepOut.state]
      · rw [if_neg h3]
        by_cases h4 : ¬st.parser = true ∧ ¬eng.parserCreateOk = true
        · left
          rw [if_pos h4]
          simp [StepOut.state]
        · rw [if_neg h4]
          simp only []
          by_cases hr0 : (runParse eng { st with parser := true } ev).2.1 ≠ 0
          · simp only [eq_true hr0, if_true, StepOut.state, StepOut.trace]
            rcases hq with hql | hqr
            · left
              exact hql
            · right
              refine hasCreate_sub hqr ?_
              intro x hx
              simp [hx]
          · simp only [eq_false hr0, if_false]
            by_cases hsz : (runParse eng { st with parser := true } ev).1.d.wsrc = 0 ∨
                (runParse eng { st with parser := true } ev).1.d.hsrc = 0
            · simp only [eq_true hsz, if_true]
              by_cases hemp : (runParse eng { st with parser := true } ev).1.empty = true
              · simp only [eq_true hemp, if_true, StepOut.state, StepOut.trace]
                rcases hq with hql | hqr
                · left
                  exact hql
                · right
                  refine hasCreate_sub hqr ?_
                  intro x hx
                  simp [hx]
              · simp only [eq_false hemp, if_false, StepOut.state, StepOut.trace]
                rcases hq with hql | hqr
                · left
                  simpa [sizesQuad] using hql
                · right
                  refine hasCreate_sub hqr ?_
                  intro x hx
                  simp [hx]
            · simp only [eq_false hsz, if_false]
              by_cases hmis : (runParse eng { st with parser := true } ev).1.d.wsrc ≠
                  (runParse eng { st with parser := true } ev).1.d.wi ∨
                  (runParse eng { st with parser := true } ev).1.d.hsrc ≠
                  (runParse eng { st with parser := true } ev).1.d.hi ∨
                  (runParse eng { st with parser := true } ev).1.d.wdst ≠ w ∨
                  (runParse eng { st with parser := true } ev).1.d.hdst ≠ h
              · rw [if_pos (by simpa using hmis)]
                right
                simp only [StepOut.trace]
                have hrc := resize_hasCreate eng
                  { (runParse eng { st with parser := true } ev).1 with empty := false }
                  ({ (runParse eng { st with parser := true } ev).1 with empty := false } : NvpDecoder).d.wsrc
                  ({ (runParse eng { st with parser := true } ev).1 with empty := false } : NvpDecoder).d.hsrc w h
                refine hasCreate_sub hrc ?_
                intro x hx
                simp [hx]
              · rw [if_neg (by simpa using hmis)]
                by_cases hmp : eng.mapRes ≠ 0
                · simp only [eq_true hmp, if_true, StepOut.state]
                  rcases hq with hql | hqr
                  · left
                    simpa [sizesQuad] using hql
                  · right
                    refine hasCreate_sub hqr ?_
                    intro x hx
                    simp [StepOut.trace, hx]
                · simp only [eq_false hmp, if_false]
                  by_cases hs1 : eng.subRes ≠ 0 <;> by_cases hs2 : eng.copyRes ≠ 0 <;>
                    by_cases hs3 : eng.syncRes ≠ 0 <;>
                    simp only [eq_true, eq_false, hs1, hs2, hs3, ne_eq,
                               not_true_eq_false, not_false_eq_true, if_true,
                               if_false, ite_true, ite_false,
                               Decidable.not_not, StepOut.state, StepOut.trace] <;>
                    rcases hq with hql | hqr
                  all_goals first
                    | (left
                       simpa [sizesQuad] using hql)
                    | (right
                       refine hasCreate_sub hqr ?_
                       intro x hx
                       simp [StepOut.trace, hx])

/-- C5: across any whole decode call — recursion, callbacks and failure
paths included — the recorded created-input-size (wi, hi) and
created-output-size (wdst, hdst) change only together with a decoder
recreate: whenever they differ after the call, the call's trace contains a
`cuvidCreateDecoder` attempt (every such attempt happens inside
`dec_initialize`, which is entered only with the decoder handle cleared,
and this holds also when decoder creation or buffer allocation fails
partway through the reinitialization). -/
theorem c5_sizes_with_recreate (eng : Engine) (fuel k : Nat) (st : NvpDecoder)
    (a w h : Nat)
    (hch : sizesQuad (nvp_cuvid_decode eng fuel k st a w h).st ≠ sizesQuad st) :
    hasCreate (nvp_cuvid_decode eng fuel k st a w h).tr := by
  induction fuel generalizing k st with
  | zero => simp [nvp_cuvid_decode] at hch
  | succ n ih =>
    have hs := step_sizes eng (eng.parses k) st a w h
    cases hstep : decode_step eng (eng.parses k) st a w h with
    | done e st1 tr =>
      rw [hstep] at hs
      simp only [StepOut.state, StepOut.trace] at hs
      have heq : nvp_cuvid_decode eng (n + 1) k st a w h =
          ⟨e, st1, tr, 0, k + 1, false⟩ := by
        conv_lhs => simp only [nvp_cuvid_decode]
        rw [hstep]
      rw [heq] at hch ⊢
      simp only at hch ⊢
      rcases hs with hql | hqr
      · exact absurd hql hch
      · exact hqr
    | again st1 tr =>
      rw [hstep] at hs
      simp only [StepOut.state, StepOut.trace] at hs
      have heq := decode_succ_again eng n k st a w h st1 tr hstep
      rw [heq] at hch ⊢
      simp only at hch ⊢
      by_cases hx : sizesQuad (nvp_cuvid_decode eng n (k + 1) st1 a w h).st =
          sizesQuad st1
      · rcases hs with hql | hqr
        · exact absurd (hx.trans hql) hch
        · refine hasCreate_sub hqr ?_
          intro x hx2
          simp [hx2]
      · refine hasCreate_sub (ih (k + 1) st1 hx) ?_
        intro x hx2
        simp [hx2]

/-- Witness for C5: the concrete resize run of engResize changes the
created input width from 16 to 32, and indeed its trace contains the
decoder-create call. -/
theorem c5_sizes_with_recreate_w :
    hasCreate (nvp_cuvid_decode engResize 2 0 stSteady 9 16 16).tr :=
  c5_sizes_with_recreate engResize 2 0 stSteady 9 16 16 (by decide)

/-- `decode_step` is validation and lazy parser creation followed by
`step_core` applied to the submission outcome. -/
theorem decode_step_core (eng : Engine) (ev : ParseEvent) (st : NvpDecoder)
    (a w h : Nat) :
    decode_step eng ev st a w h =
      (if ¬ st.isDecoder then .done .einval st []
       else if a = 0 then .done .einval st []
       else if w = 0 ∨ h = 0 ∨ h % 2 = 1 then .done .einval st []
       else if ¬ st.parser ∧ ¬ eng.parserCreateOk then
         .done .edecode st [EngAct.createParserAct]
       else
         step_core eng (runParse eng { st with parser := true } ev).1
           (runParse eng { st with parser := true } ev).2.1
           ((if st.parser then [] else [EngAct.createParserAct]) ++
             EngAct.parseData a ::
               (runParse eng { st with parser := true } ev).2.2) w h) := rfl

/-! ## C3 — recursion bound (amended part) -/

/-- Classification of one post-submission core step: against an engine
whose create/free/alloc calls succeed, it either finishes the call or
resubmits with a state that is either pending-empty or freshly resized to
the observed size and the requested output size. -/
theorem step_core_any (eng : Engine) (Q : NvpDecoder) (res : CUresult)
    (tr0 : List EngAct) (w h : Nat)
    (hc : eng.createOk = true) (hf : eng.freeOk = true) (hal : eng.allocOk = true) :
    (step_core eng Q res tr0 w h).isDone = true ∨
    ∃ st1 tr, step_core eng Q res tr0 w h = .again st1 tr ∧
      (stateP st1 ∨ stateR w h st1) := by
  simp only [step_core]
  split_ifs with hr0 hsz hemp hmis hmp hs1 hs2 hs3
  all_goals try (left ; simp [StepOut.isDone] ; done)
  · right
    refine ⟨_, _, rfl, Or.inl ?_⟩
    constructor
    · simpa using hsz
    · rfl
  · right
    refine ⟨_, _, rfl, Or.inr ?_⟩
    have hok := resize_ok eng { Q with empty := false }
      ({ Q with empty := false } : NvpDecoder).d.wsrc
      ({ Q with empty := false } : NvpDecoder).d.hsrc w h hc hf hal
    have hpre := resize_preserve eng { Q with empty := false }
      ({ Q with empty := false } : NvpDecoder).d.wsrc
      ({ Q with empty := false } : NvpDecoder).d.hsrc w h
    push_neg at hsz
    unfold stateR
    refine ⟨?_, ?_, hok.2.2.1, hok.2.2.2.1, ?_, ?_, hok.2.2.2.2.1⟩
    · rw [hok.1, hpre.1]
    · rw [hok.2.1, hpre.2.1]
    · rw [hpre.1]
      simpa using hsz.1
    · rw [hpre.2.1]
      simpa using hsz.2

/-- A core step whose input state is pending-empty, or freshly resized, or
already steady, either finishes or resubmits in the steady state for the
fixed reported size. -/
theorem step_core_R2out (eng : Engine) (Q : NvpDecoder) (res : CUresult)
    (tr0 : List EngAct) (w h pw ph : Nat)
    (hc : eng.createOk = true) (hf : eng.freeOk = true) (hal : eng.allocOk = true)
    (hpw : pw ≠ 0) (hph : ph ≠ 0)
    (hQ : (Q.d.wsrc = pw * 16 ∧ Q.d.hsrc = ph * 16) ∨
          (Q.empty = true ∧ (Q.d.wsrc = 0 ∨ Q.d.hsrc = 0)) ∨
          (Q.d.wsrc = Q.d.wi ∧ Q.d.hsrc = Q.d.hi ∧ Q.d.wdst = w ∧
           Q.d.hdst = h ∧ Q.d.wsrc ≠ 0 ∧ Q.d.hsrc ≠ 0)) :
    (step_core eng Q res tr0 w h).isDone = true ∨
    ∃ st1 tr, step_core eng Q res tr0 w h = .again st1 tr ∧
      stateR2 pw ph w h st1 := by
  simp only [step_core]
  split_ifs with hr0 hsz hemp hmis hmp hs1 hs2 hs3
  all_goals try (left ; simp [StepOut.isDone] ; done)
  · exfalso
    rcases hQ with ⟨hq1, hq2⟩ | ⟨hq1, hq2⟩ | ⟨hq1, hq2, hq3, hq4, hq5, hq6⟩
    · rcases hsz with hs | hs
      · rw [hq1] at hs
        exact (Nat.mul_ne_zero hpw (by norm_num)) hs
      · rw [hq2] at hs
        exact (Nat.mul_ne_zero hph (by norm_num)) hs
    · exact hemp hq1
    · rcases hsz with hs | hs
      · exact hq5 hs
      · exact hq6 hs
  · rcases hQ with ⟨hq1, hq2⟩ | ⟨hq1, hq2⟩ | ⟨hq1, hq2, hq3, hq4, hq5, hq6⟩
    · right
      refine ⟨_, _, rfl, ?_⟩
      have hok := resize_ok eng { Q with empty := false }
        ({ Q with empty := false } : NvpDecoder).d.wsrc
        ({ Q with empty := false } : NvpDecoder).d.hsrc w h hc hf hal
      have hpre := resize_preserve eng { Q with empty := false }
        ({ Q with empty := false } : NvpDecoder).d.wsrc
        ({ Q with empty := false } : NvpDecoder).d.hsrc w h
      unfold stateR2
      refine ⟨?_, ?_, ?_, ?_, hok.2.2.1, hok.2.2.2.1, hok.2.2.2.2.1⟩
      · rw [hok.1]
        simpa using hq1
      · rw [hok.2.1]
        simpa using hq2
      · rw [hpre.1]
        simpa using hq1
      · rw [hpre.2.1]
        simpa using hq2
    · exfalso
      rcases hq2 with hs | hs
      · exact hsz (Or.inl hs)
      · exact hsz (Or.inr hs)
    · exfalso
      rcases hmis with hm | hm | hm | hm
      · exact hm hq1
      · exact hm hq2
      · exact hm hq3
      · exact hm hq4

/-- A core step whose input already agrees with the created sizes always
finishes the call. -/
theorem step_core_done (eng : Engine) (Q : NvpDecoder) (res : CUresult)
    (tr0 : List EngAct) (w h : Nat)
    (hQ : Q.d.wsrc = Q.d.wi ∧ Q.d.hsrc = Q.d.hi ∧ Q.d.wdst = w ∧
          Q.d.hdst = h ∧ Q.d.wsrc ≠ 0 ∧ Q.d.hsrc ≠ 0) :
    (step_core eng Q res tr0 w h).isDone = true := by
  obtain ⟨hq1, hq2, hq3, hq4, hq5, hq6⟩ := hQ
  simp only [step_core]
  split_ifs with hr0 hsz hemp hmis hmp hs1 hs2 hs3
  all_goals try (simp [StepOut.isDone] ; done)
  · exfalso
    rcases hsz with hs | hs
    · exact hq5 hs
    · exact hq6 hs
  · exfalso
    rcases hmis with hm | hm | hm | hm
    · exact hm hq1
    · exact hm hq2
    · exact hm hq3
    · exact hm hq4

/-- Unfolding of a decode call whose first submission attempt finishes. -/
theorem decode_succ_done (eng : Engine) (fuel k : Nat) (st : NvpDecoder)
    (a w h : Nat) (e : NvpErr) (st1 : NvpDecoder) (tr : List EngAct)
    (hstep : decode_step eng (eng.parses k) st a w h = .done e st1 tr) :
    nvp_cuvid_decode eng (fuel + 1) k st a w h = ⟨e, st1, tr, 0, k + 1, false⟩ := by
  conv_lhs => simp only [nvp_cuvid_decode]
  rw [hstep]

/-- Step classification at the decode_step level: finish, or resubmit in a
pending-empty or freshly-resized state. -/
theorem stepc_any (eng : Engine) (a w h k : Nat) (st : NvpDecoder)
    (hc : eng.createOk = true) (hf : eng.freeOk = true) (hal : eng.allocOk = true) :
    (decode_step eng (eng.parses k) st a w h).isDone = true ∨
    ∃ st1 tr, decode_step eng (eng.parses k) st a w h = .again st1 tr ∧
      (stateP st1 ∨ stateR w h st1) := by
  rw [decode_step_core]
  split_ifs with h1 h2 h3 h4
  all_goals try (left ; simp [StepOut.isDone] ; done)
  all_goals exact step_core_any eng _ _ _ w h hc hf hal

/-- From a pending-empty or freshly-resized state, a step against a
size-consistent engine finishes or resubmits in the steady state. -/
theorem stepc_PR (eng : Engine) (pw ph a w h k : Nat) (st : NvpDecoder)
    (hc : eng.createOk = true) (hf : eng.freeOk = true) (hal : eng.allocOk = true)
    (hpw : pw ≠ 0) (hph : ph ≠ 0) (hpic : picConsistent eng pw ph)
    (hst : stateP st ∨ stateR w h st) :
    (decode_step eng (eng.parses k) st a w h).isDone = true ∨
    ∃ st1 tr, decode_step eng (eng.parses k) st a w h = .again st1 tr ∧
      stateR2 pw ph w h st1 := by
  have hQfact :
      ((runParse eng { st with parser := true } (eng.parses k)).1.d.wsrc = pw * 16 ∧
       (runParse eng { st with parser := true } (eng.parses k)).1.d.hsrc = ph * 16) ∨
      ((runParse eng { st with parser := true } (eng.parses k)).1.empty = true ∧
       ((runParse eng { st with parser := true } (eng.parses k)).1.d.wsrc = 0 ∨
        (runParse eng { st with parser := true } (eng.parses k)).1.d.hsrc = 0)) ∨
      ((runParse eng { st with parser := true } (eng.parses k)).1.d.wsrc =
         (runParse eng { st with parser := true } (eng.parses k)).1.d.wi ∧
       (runParse eng { st with parser := true } (eng.parses k)).1.d.hsrc =
         (runParse eng { st with parser := true } (eng.parses k)).1.d.hi ∧
       (runParse eng { st with parser := true } (eng.parses k)).1.d.wdst = w ∧
       (runParse eng { st with parser := true } (eng.parses k)).1.d.hdst = h ∧
       (runParse eng { st with parser := true } (eng.parses k)).1.d.wsrc ≠ 0 ∧
       (runParse eng { st with parser := true } (eng.parses k)).1.d.hsrc ≠ 0) := by
    have hsrc := runParse_src eng { st with parser := true } (eng.parses k)
    have hprev := runParse_preserve eng { st with parser := true } (eng.parses k)
    have hemp' : (runParse eng { st with parser := true } (eng.parses k)).1.empty
        = st.empty := by simpa using hprev.1
    rcases hsrc with ⟨hw1, hh1⟩ | ⟨pic, hpeq, hw1, hh1⟩
    · have hw1' : (runParse eng { st with parser := true } (eng.parses k)).1.d.wsrc
          = st.d.wsrc := by simpa using hw1
      have hh1' : (runParse eng { st with parser := true } (eng.parses k)).1.d.hsrc
          = st.d.hsrc := by simpa using hh1
      rcases hst with hP | hR
      · right
        left
        refine ⟨hemp'.trans hP.2, ?_⟩
        rcases hP.1 with hs | hs
        · exact Or.inl (hw1'.trans hs)
        · exact Or.inr (hh1'.trans hs)
      · have hfld := runParse_init_fields eng { st with parser := true }
          (eng.parses k) (by simpa using hR.2.2.2.2.2.2)
        right
        right
        refine ⟨?_, ?_, ?_, ?_, ?_, ?_⟩
        · rw [hw1', hfld.1]
          simpa using hR.1.symm
        · rw [hh1', hfld.2.1]
          simpa using hR.2.1.symm
        · rw [hfld.2.2.1]
          simpa using hR.2.2.1
        · rw [hfld.2.2.2.1]
          simpa using hR.2.2.2.1
        · rw [hw1']
          exact hR.2.2.2.2.1
        · rw [hh1']
          exact hR.2.2.2.2.2.1
    · have hpiceq := hpic k 0 pic hpeq rfl
      left
      constructor
      · rw [hw1, hpiceq]
      · rw [hh1, hpiceq]
  rw [decode_step_core]
  split_ifs with h1 h2 h3 h4
  all_goals try (left ; simp [StepOut.isDone] ; done)
  all_goals exact step_core_R2out eng _ _ _ w h pw ph hc hf hal hpw hph hQfact

/-- From the steady state for the engine's fixed reported size, a step
always finishes the call. -/
theorem stepc_R2 (eng : Engine) (pw ph a w h k : Nat) (st : NvpDecoder)
    (hpw : pw ≠ 0) (hph : ph ≠ 0) (hpic : picConsistent eng pw ph)
    (hst : stateR2 pw ph w h st) :
    (decode_step eng (eng.parses k) st a w h).isDone = true := by
  obtain ⟨hwi, hhi, hwsrc, hhsrc, hwd, hhd, hinit⟩ := hst
  have hfld := runParse_init_fields eng { st with parser := true }
    (eng.parses k) (by simpa using hinit)
  have hsrc := runParse_src eng { st with parser := true } (eng.parses k)
  have hQw : (runParse eng { st with parser := true } (eng.parses k)).1.d.wsrc
      = pw * 16 ∧
      (runParse eng { st with parser := true } (eng.parses k)).1.d.hsrc
      = ph * 16 := by
    rcases hsrc with ⟨hw1, hh1⟩ | ⟨pic, hpeq, hw1, hh1⟩
    · constructor
      · rw [hw1]
        simpa using hwsrc
      · rw [hh1]
        simpa using hhsrc
    · have hpiceq := hpic k 0 pic hpeq rfl
      constructor
      · rw [hw1, hpiceq]
      · rw [hh1, hpiceq]
  have hQ3 : (runParse eng { st with parser := true } (eng.parses k)).1.d.wsrc =
      (runParse eng { st with parser := true } (eng.parses k)).1.d.wi ∧
      (runParse eng { st with parser := true } (eng.parses k)).1.d.hsrc =
      (runParse eng { st with parser := true } (eng.parses k)).1.d.hi ∧
      (runParse eng { st with parser := true } (eng.parses k)).1.d.wdst = w ∧
      (runParse eng { st with parser := true } (eng.parses k)).1.d.hdst = h ∧
      (runParse eng { st with parser := true } (eng.parses k)).1.d.wsrc ≠ 0 ∧
      (runParse eng { st with parser := true } (eng.parses k)).1.d.hsrc ≠ 0 := by
    refine ⟨?_, ?_, ?_, ?_, ?_, ?_⟩
    · rw [hQw.1, hfld.1]
      simpa using hwi.symm
    · rw [hQw.2, hfld.2.1]
      simpa using hhi.symm
    · rw [hfld.2.2.1]
      simpa using hwd
    · rw [hfld.2.2.2.1]
      simpa using hhd
    · rw [hQw.1]
      exact Nat.mul_ne_zero hpw (by norm_num)
    · rw [hQw.2]
      exact Nat.mul_ne_zero hph (by norm_num)
  rw [decode_step_core]
  split_ifs with h1 h2 h3 h4
  all_goals try (simp [StepOut.isDone] ; done)
  all_goals exact step_core_done eng _ _ _ w h hQ3

/-- C3 (amended): for every decode call — any packet, any requested size,
any session state — provided the engine's create/free/alloc calls succeed
and every successful picture callback within the call reports one and the
same size (as the real engine does when the identical packet is
resubmitted), the self-resubmission recursion is bounded by two
resubmissions and the call terminates: fuel 3 is never exhausted. -/
theorem c3_bounded (eng : Engine) (pw ph k : Nat) (st : NvpDecoder) (a w h : Nat)
    (hc : eng.createOk = true) (hf : eng.freeOk = true) (hal : eng.allocOk = true)
    (hpw : pw ≠ 0) (hph : ph ≠ 0) (hpic : picConsistent eng pw ph) :
    (nvp_cuvid_decode eng 3 k st a w h).fuelOut = false ∧
    (nvp_cuvid_decode eng 3 k st a w h).resubmits ≤ 2 := by
  rw [show (3 : Nat) = 2 + 1 from rfl]
  cases hstep1 : decode_step eng (eng.parses k) st a w h with
  | done e st1 tr =>
    rw [decode_succ_done eng 2 k st a w h e st1 tr hstep1]
    simp
  | again st1 tr =>
    have hcls1 := stepc_any eng a w h k st hc hf hal
    rw [hstep1] at hcls1
    rcases hcls1 with hdone | ⟨st1', tr', heq, hcls1⟩
    · simp [StepOut.isDone] at hdone
    · injection heq with he1 he2
      rw [← he1] at hcls1
      rw [decode_succ_again eng 2 k st a w h st1 tr hstep1]
      simp only
      have hL2 : (nvp_cuvid_decode eng 2 (k + 1) st1 a w h).fuelOut = false ∧
          (nvp_cuvid_decode eng 2 (k + 1) st1 a w h).resubmits ≤ 1 := by
        rw [show (2 : Nat) = 1 + 1 from rfl]
        cases hstep2 : decode_step eng (eng.parses (k + 1)) st1 a w h with
        | done e2 st2 tr2 =>
          rw [decode_succ_done eng 1 (k + 1) st1 a w h e2 st2 tr2 hstep2]
          simp
        | again st2 tr2 =>
          have hcls2 := stepc_PR eng pw ph a w h (k + 1) st1 hc hf hal hpw hph
            hpic hcls1
          rw [hstep2] at hcls2
          rcases hcls2 with hdone | ⟨st2', tr2', heq2, hcls2⟩
          · simp [StepOut.isDone] at hdone
          · injection heq2 with he3 he4
            rw [← he3] at hcls2
            rw [decode_succ_again eng 1 (k + 1) st1 a w h st2 tr2 hstep2]
            simp only
            have hd3 := stepc_R2 eng pw ph a w h (k + 2) st2 hpw hph hpic hcls2
            cases hstep3 : decode_step eng (eng.parses (k + 2)) st2 a w h with
            | done e3 st3 tr3 =>
              rw [decode_succ_done eng 0 (k + 2) st2 a w h e3 st3 tr3 hstep3]
              simp
            | again st3 tr3 =>
              rw [hstep3] at hd3
              simp [StepOut.isDone] at hd3
      refine ⟨hL2.1, ?_⟩
      omega

/-- Witness for C3 (amended): the resize engine at a fresh session
finishes within the bound. -/
theorem c3_bounded_w :
    (nvp_cuvid_decode engResize 3 0 freshSession 9 16 16).fuelOut = false ∧
    (nvp_cuvid_decode engResize 3 0 freshSession 9 16 16).resubmits ≤ 2 :=
  c3_bounded engResize 2 1 0 freshSession 9 16 16 rfl rfl rfl (by decide)
    (by decide)
    (by
      intro k r pic hp hr
      simp only [engResize, engBase, picEvent] at hp
      injection hp with hp2
      injection hp2 with hpa hpb
      exact hpb.symm)
